import Mathlib

set_option maxHeartbeats 1000000

/-!
Shallow embedding of the Jellyfin/arr cross-checker (`src/service.py`,
`src/clients/jellyfin.py`, `src/models.py`, `src/web/app.py`, `main.py`).

Python dicts preserve insertion order, so they are modelled as association
lists: `dictSet` is `d[k] = v` (update in place, append new keys at the end),
`dictAppend` is `defaultdict(list)`'s `d[k].append(v)`.
-/

def dictGet {α : Type} : List (String × α) → String → Option α
  | [], _ => none
  | (k', v) :: rest, k => if k' = k then some v else dictGet rest k

def dictSet {α : Type} : List (String × α) → String → α → List (String × α)
  | [], k, v => [(k, v)]
  | (k', v') :: rest, k, v =>
    if k' = k then (k', v) :: rest else (k', v') :: dictSet rest k v

def dictAppend {α : Type} : List (String × List α) → String → α → List (String × List α)
  | [], k, v => [(k, [v])]
  | (k', vs) :: rest, k, v =>
    if k' = k then (k', vs ++ [v]) :: rest else (k', vs) :: dictAppend rest k v

def dictKeys {α : Type} (d : List (String × α)) : List String :=
  d.map Prod.fst

/-- The values of the pairs whose key is `k`, in order: what
`defaultdict(list)` accumulates under `k`, and whose last element is what
repeated `d[k] = v` assignment leaves under `k`. -/
def selValues {α : Type} (pairs : List (String × α)) (k : String) : List α :=
  pairs.filterMap fun p => if p.1 = k then some p.2 else none

def lastOr {α : Type} : List α → Option α → Option α
  | [], fb => fb
  | v :: l, _ => lastOr l (some v)

/-!
Decimal rendering of Python `str(x)` for `x : Optional[int]`:
`str(None) = "None"`, `str(n)` the usual decimal form (with a leading `-`
for negative numbers).  `natDecimalDigits` lists the base-10 digits from
most to least significant.
-/

def natDecimalDigits (n : Nat) : List Nat :=
  if _h : n < 10 then [n] else natDecimalDigits (n / 10) ++ [n % 10]
decreasing_by exact Nat.div_lt_self (by omega) (by omega)

def natStr (n : Nat) : String :=
  ⟨(natDecimalDigits n).map Nat.digitChar⟩

def intStr (i : Int) : String :=
  if i < 0 then "-" ++ natStr i.natAbs else natStr i.toNat

def optIntStr : Option Int → String
  | none => "None"
  | some i => intStr i

/-- The numeric value of a most-significant-first digit list; inverse of
`natDecimalDigits`, used to show decimal rendering is injective. -/
def decimalValue (l : List Nat) : Nat :=
  l.foldl (fun a d => a * 10 + d) 0

/-! ### Data model (`src/models.py`) -/

structure MovieInfo where
  title : String
  year : Option Int := none
  tmdb_id : Option String := none
  imdb_id : Option String := none
  path : Option String := none
  in_radarr : Bool := false
  radarr_id : Option Int := none
  jellyfin_id : Option String := none
  watched_by_users : List String := []
deriving Repr, DecidableEq

structure SeriesInfo where
  title : String
  year : Option Int := none
  tvdb_id : Option String := none
  imdb_id : Option String := none
  path : Option String := none
  in_sonarr : Bool := false
  sonarr_id : Option Int := none
  sonarr_title_slug : Option String := none
  jellyfin_id : Option String := none
  total_episodes : Nat := 0
  watched_episodes : Nat := 0
  is_fully_watched : Bool := false
  watched_by_users : List String := []
deriving Repr, DecidableEq

structure UserWatchData where
  user_id : String
  username : String
  watched_movies : List MovieInfo := []
  watched_series : List SeriesInfo := []
deriving Repr, DecidableEq

structure Report where
  users : List UserWatchData := []
  movies_watched_by_all : List MovieInfo := []
  movies_watched_by_some : List MovieInfo := []
  series_fully_watched_by_all : List SeriesInfo := []
  series_fully_watched_by_some : List SeriesInfo := []
  series_partially_watched_by_all : List SeriesInfo := []
  series_partially_watched_by_some : List SeriesInfo := []
  jellyfin_url : Option String := none
  radarr_url : Option String := none
  sonarr_url : Option String := none
deriving Repr, DecidableEq

/-- The grouping key `key = f"{movie.title}_{movie.year}"` of
`_generate_report` (`service.py:179`). -/
def MovieInfo.groupKey (m : MovieInfo) : String :=
  m.title ++ "_" ++ optIntStr m.year

/-- The grouping key `key = f"{series.title}_{series.year}"` of
`_generate_report` (`service.py:190`). -/
def SeriesInfo.groupKey (s : SeriesInfo) : String :=
  s.title ++ "_" ++ optIntStr s.year

/-! ### `_generate_report` (`service.py:159`)

The two accumulation loops are flattened: `xPairs` lists the `(key, value)`
pairs in the order the nested `for user_data in users_data:
for item in user_data...` loops visit them, and the dictionaries are folds
of `dictAppend` / `dictSet` over those pairs, exactly as the loop bodies
perform them. -/

def moviePairs (users_data : List UserWatchData) : List (String × String) :=
  users_data.flatMap fun ud =>
    ud.watched_movies.map fun m => (m.groupKey, ud.username)

def movieDataPairs (users_data : List UserWatchData) : List (String × MovieInfo) :=
  users_data.flatMap fun ud =>
    ud.watched_movies.map fun m => (m.groupKey, m)

def seriesPairsFull (users_data : List UserWatchData) : List (String × String) :=
  users_data.flatMap fun ud =>
    (ud.watched_series.filter fun s => s.is_fully_watched).map fun s =>
      (s.groupKey, ud.username)

def seriesPairsPart (users_data : List UserWatchData) : List (String × String) :=
  users_data.flatMap fun ud =>
    (ud.watched_series.filter fun s => !s.is_fully_watched).map fun s =>
      (s.groupKey, ud.username)

def seriesDataPairs (users_data : List UserWatchData) : List (String × SeriesInfo) :=
  users_data.flatMap fun ud =>
    ud.watched_series.map fun s => (s.groupKey, s)

def buildWatchers (pairs : List (String × String)) : List (String × List String) :=
  pairs.foldl (fun d p => dictAppend d p.1 p.2) []

def buildLatest {α : Type} (pairs : List (String × α)) : List (String × α) :=
  pairs.foldl (fun d p => dictSet d p.1 p.2) []

/-- The movie categorization loop (`service.py:200`): for each
`(key, watchers)` of `movie_watchers`, set `watched_by_users` on
`movie_data[key]` and file it by comparing `len(watchers)` with
`total_users`. -/
def categorizeMovies (total : Nat) (data : List (String × MovieInfo)) :
    List (String × List String) → List MovieInfo × List MovieInfo
  | [] => ([], [])
  | (k, ws) :: rest =>
    let acc := categorizeMovies total data rest
    match dictGet data k with
    | none => acc
    | some m =>
      if ws.length = total then ({ m with watched_by_users := ws } :: acc.1, acc.2)
      else (acc.1, { m with watched_by_users := ws } :: acc.2)

/-- One series categorization loop (`service.py:209` and `:218`).  Python
files *references* into the bucket lists and mutates the shared
`series_data[key]` object, so the store of objects is threaded through and
buckets record keys; the final report resolves each key against the store
as it stands after both loops (which is when the report is read). -/
def fileSeries (total : Nat) :
    List (String × List String) → List (String × SeriesInfo) →
      List (String × SeriesInfo) × List String × List String
  | [], st => (st, [], [])
  | (k, ws) :: rest, st =>
    match dictGet st k with
    | none => fileSeries total rest st
    | some s =>
      let r := fileSeries total rest (dictSet st k { s with watched_by_users := ws })
      if ws.length = total then (r.1, k :: r.2.1, r.2.2)
      else (r.1, r.2.1, k :: r.2.2)

def resolveKeys (st : List (String × SeriesInfo)) (ks : List String) : List SeriesInfo :=
  ks.filterMap (dictGet st)

def generateReport (jellyfin_url radarr_url sonarr_url : Option String)
    (users_data : List UserWatchData) : Report :=
  let base : Report :=
    { users := users_data, jellyfin_url := jellyfin_url,
      radarr_url := radarr_url, sonarr_url := sonarr_url }
  if users_data.isEmpty then base
  else
    let movie_watchers := buildWatchers (moviePairs users_data)
    let movie_data := buildLatest (movieDataPairs users_data)
    let series_watchers_full := buildWatchers (seriesPairsFull users_data)
    let series_watchers_part := buildWatchers (seriesPairsPart users_data)
    let series_data := buildLatest (seriesDataPairs users_data)
    let total_users := users_data.length
    let mcat := categorizeMovies total_users movie_data movie_watchers
    let rfull := fileSeries total_users series_watchers_full series_data
    let rpart := fileSeries total_users series_watchers_part rfull.1
    { base with
      movies_watched_by_all := mcat.1
      movies_watched_by_some := mcat.2
      series_fully_watched_by_all := resolveKeys rpart.1 rfull.2.1
      series_fully_watched_by_some := resolveKeys rpart.1 rfull.2.2
      series_partially_watched_by_all := resolveKeys rpart.1 rpart.2.1
      series_partially_watched_by_some := resolveKeys rpart.1 rpart.2.2 }

/-- All movies of all users carrying grouping key `k`, in the order the
accumulation loop meets them. -/
def movieContribs (users_data : List UserWatchData) (k : String) : List MovieInfo :=
  users_data.flatMap fun ud => ud.watched_movies.filter fun m => m.groupKey == k

/-- All series entries of all users carrying grouping key `k`, in the order
the accumulation loop meets them. -/
def seriesContribs (users_data : List UserWatchData) (k : String) : List SeriesInfo :=
  users_data.flatMap fun ud => ud.watched_series.filter fun s => s.groupKey == k

/-- The four series buckets of a report, in one list. -/
def seriesBuckets (r : Report) : List SeriesInfo :=
  r.series_fully_watched_by_all ++ r.series_fully_watched_by_some ++
    r.series_partially_watched_by_all ++ r.series_partially_watched_by_some

/-- The watcher list a series entry filed by the *fully* loop ends up
exposing: because both loops mutate the one shared `series_data[key]`
object and the partial loop runs second, a key that also has partial
watchers shows the partial accumulator. -/
def finalWatchers (users_data : List UserWatchData) (k : String)
    (ws : List String) : List String :=
  match dictGet (buildWatchers (seriesPairsPart users_data)) k with
  | some wsP => wsP
  | none => ws

/-- Example input: a user who fully watched a series titled "X" (5 of 5
episodes, no year). -/
def exUserFullX : UserWatchData :=
  { user_id := "1", username := "A",
    watched_series :=
      [{ title := "X", total_episodes := 5, watched_episodes := 5, is_fully_watched := true }] }

/-- Example input: a user who partially watched the same series "X"
(1 of 5 episodes, no year). -/
def exUserPartX : UserWatchData :=
  { user_id := "2", username := "B",
    watched_series :=
      [{ title := "X", total_episodes := 5, watched_episodes := 1, is_fully_watched := false }] }

/-- Example input: user A watched movie "M" and fully watched series "X". -/
def exUserA : UserWatchData :=
  { user_id := "1", username := "A",
    watched_movies := [{ title := "M" }],
    watched_series :=
      [{ title := "X", total_episodes := 5, watched_episodes := 5, is_fully_watched := true }] }

/-- Example input: user B watched movie "M" and partially watched series "X". -/
def exUserB : UserWatchData :=
  { user_id := "2", username := "B",
    watched_movies := [{ title := "M" }],
    watched_series :=
      [{ title := "X", total_episodes := 5, watched_episodes := 1, is_fully_watched := false }] }

/-- Example input: a single user whose watched-movie list contains two
movies with the same title and no year (two Jellyfin items can share
title/year). -/
def exUserDupMovie : UserWatchData :=
  { user_id := "1", username := "A",
    watched_movies := [{ title := "X" }, { title := "X" }] }

/-! ### Jellyfin client (`src/clients/jellyfin.py`)

The raw API payloads are modelled structurally: `movie.get("X")` fields
become `Option` fields (Jellyfin provider ids are strings, years are ints).
`ProviderIds` missing and `ProviderIds` empty are observationally equal
through `movie.get("ProviderIds", {}).get(...)`, so the two provider id
fields are flattened into the record. -/

structure JFUser where
  id : String
  name : String
deriving Repr, DecidableEq

structure JFMovie where
  name : Option String := none
  productionYear : Option Int := none
  providerTmdb : Option String := none
  providerImdb : Option String := none
  path : Option String := none
  jellyfinId : Option String := none
deriving Repr, DecidableEq

structure JFSeries where
  name : Option String := none
  productionYear : Option Int := none
  providerTvdb : Option String := none
  providerImdb : Option String := none
  path : Option String := none
  jellyfinId : Option String := none
deriving Repr, DecidableEq

structure EpisodeUserData where
  played : Option Bool := none
deriving Repr, DecidableEq

structure Episode where
  userData : Option EpisodeUserData := none
deriving Repr, DecidableEq

/-- `ep.get("UserData", {}).get("Played", False)` (`jellyfin.py:175`). -/
def Episode.playedFlag (e : Episode) : Bool :=
  match e.userData with
  | none => false
  | some ud => ud.played.getD false

/-- `is_series_fully_watched` (`jellyfin.py:162`) with the fetched episode
list made explicit.  Returns `(is_fully_watched, watched_count,
total_count)`. -/
def is_series_fully_watched (episodes : List Episode) : Bool × Nat × Nat :=
  if episodes.isEmpty then (false, 0, 0)
  else
    let total_episodes := episodes.length
    let watched_episodes := episodes.countP fun e => e.playedFlag
    (decide (watched_episodes = total_episodes) && decide (total_episodes > 0),
      watched_episodes, total_episodes)

/-! ### Radarr / Sonarr catalogs (`radarr.py`, `sonarr.py`) and the lookup
maps of `collect_data` (`service.py:50` and `:56`).

The Python guard `if movie.get("tmdbId")` is *truthiness*, not a null
check: an id of `0` is skipped as well. -/

structure RadarrMovie where
  tmdbId : Option Int := none
  id : Option Int := none
deriving Repr, DecidableEq

structure SonarrSeries where
  tvdbId : Option Int := none
  id : Option Int := none
  titleSlug : Option String := none
deriving Repr, DecidableEq

def buildRadarrLookup (radarr_movies : List RadarrMovie) :
    List (String × RadarrMovie) :=
  radarr_movies.foldl
    (fun d m =>
      match m.tmdbId with
      | some n => if n = 0 then d else dictSet d (intStr n) m
      | none => d) []

def buildSonarrLookup (sonarr_series : List SonarrSeries) :
    List (String × SonarrSeries) :=
  sonarr_series.foldl
    (fun d s =>
      match s.tvdbId with
      | some n => if n = 0 then d else dictSet d (intStr n) s
      | none => d) []

/-! ### `_parse_movie` / `_parse_series` (`service.py:93` and `:118`)

`radarr_lookup.get(str(tmdb_id)) if tmdb_id else None`: `tmdb_id` is an
`Optional[str]`, truthiness rejects both `None` and `""`; `str` of a
string is itself. -/

def lookupByProviderId {α : Type} (lookup : List (String × α))
    (provider_id : Option String) : Option α :=
  match provider_id with
  | some s => if s.isEmpty then none else dictGet lookup s
  | none => none

def parse_movie (movie : JFMovie) (radarr_lookup : List (String × RadarrMovie)) :
    MovieInfo :=
  let tmdb_id := movie.providerTmdb
  let radarr_movie := lookupByProviderId radarr_lookup tmdb_id
  { title := movie.name.getD "Unknown"
    year := movie.productionYear
    tmdb_id := tmdb_id
    imdb_id := movie.providerImdb
    path := movie.path
    in_radarr := radarr_movie.isSome
    radarr_id := radarr_movie.bind (fun r => r.id)
    jellyfin_id := movie.jellyfinId
    watched_by_users := [] }

def parse_series (series : JFSeries) (user_id : String)
    (sonarr_lookup : List (String × SonarrSeries))
    (episodesOf : Option String → String → List Episode) : Option SeriesInfo :=
  let tvdb_id := series.providerTvdb
  let sonarr_entry := lookupByProviderId sonarr_lookup tvdb_id
  let series_id := series.jellyfinId
  let r := is_series_fully_watched (episodesOf series_id user_id)
  -- service.py:141: only include series that have been watched at least partially
  if r.2.1 = 0 then none
  else
    some { title := series.name.getD "Unknown"
           year := series.productionYear
           tvdb_id := tvdb_id
           imdb_id := series.providerImdb
           path := series.path
           in_sonarr := sonarr_entry.isSome
           sonarr_id := sonarr_entry.bind (fun s => s.id)
           sonarr_title_slug := sonarr_entry.bind (fun s => s.titleSlug)
           jellyfin_id := series_id
           total_episodes := r.2.2
           watched_episodes := r.2.1
           is_fully_watched := r.1
           watched_by_users := [] }

/-! ### `collect_data` (`service.py:29`)

All network behaviour of the Jellyfin client is abstracted into an
environment: whether `authenticate` succeeds, and what each fetch
returns. -/

structure JellyfinEnv where
  authOk : Bool
  users : List JFUser
  watchedMovies : String → List JFMovie
  watchedSeries : String → List JFSeries
  episodesOf : Option String → String → List Episode

def collectUserData (env : JellyfinEnv)
    (radarr_tmdb_lookup : List (String × RadarrMovie))
    (sonarr_tvdb_lookup : List (String × SonarrSeries)) : List UserWatchData :=
  env.users.map fun u =>
    { user_id := u.id
      username := u.name
      watched_movies :=
        (env.watchedMovies u.id).map fun m => parse_movie m radarr_tmdb_lookup
      watched_series :=
        (env.watchedSeries u.id).filterMap fun s =>
          parse_series s u.id sonarr_tvdb_lookup env.episodesOf }

/-- The grouping key the parsed entry for a raw Jellyfin series will get:
`Name` defaulted to "Unknown", year rendered as by `str`. -/
def JFSeries.parsedKey (s : JFSeries) : String :=
  s.name.getD "Unknown" ++ "_" ++ optIntStr s.productionYear

def collect_data (env : JellyfinEnv)
    (radarr_movies : List RadarrMovie) (sonarr_series : List SonarrSeries)
    (jellyfin_url radarr_url sonarr_url : Option String) : Report :=
  -- service.py:34: failed authentication returns a default `Report()`
  if !env.authOk then {}
  else
    let radarr_tmdb_lookup := buildRadarrLookup radarr_movies
    let sonarr_tvdb_lookup := buildSonarrLookup sonarr_series
    let users_data := collectUserData env radarr_tmdb_lookup sonarr_tvdb_lookup
    generateReport jellyfin_url radarr_url sonarr_url users_data

/-- Example environment: users A and B both see series "X" (two
episodes); A has played none of them, B has played both. -/
def exEnvC4 : JellyfinEnv :=
  { authOk := true
    users := [{ id := "1", name := "A" }, { id := "2", name := "B" }]
    watchedMovies := fun _ => []
    watchedSeries := fun _ => [{ name := some "X", jellyfinId := some "sx" }]
    episodesOf := fun _ uid =>
      if uid = "1" then
        [{ userData := some { played := some false } },
          { userData := some { played := some false } }]
      else
        [{ userData := some { played := some true } },
          { userData := some { played := some true } }] }

/-! ### Serialized form (`model_dump` of the pydantic models, `models.py`)

`model_dump` yields a Python dict tree; `Json` models those trees
(`jobj` fields are in pydantic declaration order).  Parsing models
re-validating such a tree into the models, as `Report(**data)` /
`model_validate` would. -/

inductive Json where
  | null
  | jbool (b : Bool)
  | jint (n : Int)
  | jstr (s : String)
  | jarr (xs : List Json)
  | jobj (fields : List (String × Json))

def dumpOptStr : Option String → Json
  | none => .null
  | some s => .jstr s

def dumpOptInt : Option Int → Json
  | none => .null
  | some n => .jint n

def dumpStrList (l : List String) : Json :=
  .jarr (l.map fun s => .jstr s)

def parseStr : Json → Option String
  | .jstr s => some s
  | _ => none

def parseBool : Json → Option Bool
  | .jbool b => some b
  | _ => none

def parseNat : Json → Option Nat
  | .jint n => if n < 0 then none else some n.toNat
  | _ => none

def parseOptStr : Json → Option (Option String)
  | .null => some none
  | .jstr s => some (some s)
  | _ => none

def parseOptInt : Json → Option (Option Int)
  | .null => some none
  | .jint n => some (some n)
  | _ => none

def parseList {α : Type} (p : Json → Option α) : List Json → Option (List α)
  | [] => some []
  | j :: rest => do
    let x ← p j
    let xs ← parseList p rest
    pure (x :: xs)

def parseStrList : Json → Option (List String)
  | .jarr xs => parseList parseStr xs
  | _ => none

def dumpMovie (m : MovieInfo) : Json :=
  .jobj [("title", .jstr m.title), ("year", dumpOptInt m.year),
    ("tmdb_id", dumpOptStr m.tmdb_id), ("imdb_id", dumpOptStr m.imdb_id),
    ("path", dumpOptStr m.path), ("in_radarr", .jbool m.in_radarr),
    ("radarr_id", dumpOptInt m.radarr_id),
    ("jellyfin_id", dumpOptStr m.jellyfin_id),
    ("watched_by_users", dumpStrList m.watched_by_users)]

def parseMovie : Json → Option MovieInfo
  | .jobj fs => do
    let title ← (dictGet fs "title").bind parseStr
    let year ← (dictGet fs "year").bind parseOptInt
    let tmdb_id ← (dictGet fs "tmdb_id").bind parseOptStr
    let imdb_id ← (dictGet fs "imdb_id").bind parseOptStr
    let path ← (dictGet fs "path").bind parseOptStr
    let in_radarr ← (dictGet fs "in_radarr").bind parseBool
    let radarr_id ← (dictGet fs "radarr_id").bind parseOptInt
    let jellyfin_id ← (dictGet fs "jellyfin_id").bind parseOptStr
    let watched_by_users ← (dictGet fs "watched_by_users").bind parseStrList
    pure { title := title, year := year, tmdb_id := tmdb_id, imdb_id := imdb_id,
           path := path, in_radarr := in_radarr, radarr_id := radarr_id,
           jellyfin_id := jellyfin_id, watched_by_users := watched_by_users }
  | _ => none

def dumpSeries (s : SeriesInfo) : Json :=
  .jobj [("title", .jstr s.title), ("year", dumpOptInt s.year),
    ("tvdb_id", dumpOptStr s.tvdb_id), ("imdb_id", dumpOptStr s.imdb_id),
    ("path", dumpOptStr s.path), ("in_sonarr", .jbool s.in_sonarr),
    ("sonarr_id", dumpOptInt s.sonarr_id),
    ("sonarr_title_slug", dumpOptStr s.sonarr_title_slug),
    ("jellyfin_id", dumpOptStr s.jellyfin_id),
    ("total_episodes", .jint s.total_episodes),
    ("watched_episodes", .jint s.watched_episodes),
    ("is_fully_watched", .jbool s.is_fully_watched),
    ("watched_by_users", dumpStrList s.watched_by_users)]

def parseSeries : Json → Option SeriesInfo
  | .jobj fs => do
    let title ← (dictGet fs "title").bind parseStr
    let year ← (dictGet fs "year").bind parseOptInt
    let tvdb_id ← (dictGet fs "tvdb_id").bind parseOptStr
    let imdb_id ← (dictGet fs "imdb_id").bind parseOptStr
    let path ← (dictGet fs "path").bind parseOptStr
    let in_sonarr ← (dictGet fs "in_sonarr").bind parseBool
    let sonarr_id ← (dictGet fs "sonarr_id").bind parseOptInt
    let sonarr_title_slug ← (dictGet fs "sonarr_title_slug").bind parseOptStr
    let jellyfin_id ← (dictGet fs "jellyfin_id").bind parseOptStr
    let total_episodes ← (dictGet fs "total_episodes").bind parseNat
    let watched_episodes ← (dictGet fs "watched_episodes").bind parseNat
    let is_fully_watched ← (dictGet fs "is_fully_watched").bind parseBool
    let watched_by_users ← (dictGet fs "watched_by_users").bind parseStrList
    pure { title := title, year := year, tvdb_id := tvdb_id, imdb_id := imdb_id,
           path := path, in_sonarr := in_sonarr, sonarr_id := sonarr_id,
           sonarr_title_slug := sonarr_title_slug, jellyfin_id := jellyfin_id,
           total_episodes := total_episodes, watched_episodes := watched_episodes,
           is_fully_watched := is_fully_watched, watched_by_users := watched_by_users }
  | _ => none

def dumpUser (u : UserWatchData) : Json :=
  .jobj [("user_id", .jstr u.user_id), ("username", .jstr u.username),
    ("watched_movies", .jarr (u.watched_movies.map dumpMovie)),
    ("watched_series", .jarr (u.watched_series.map dumpSeries))]

def parseUser : Json → Option UserWatchData
  | .jobj fs => do
    let user_id ← (dictGet fs "user_id").bind parseStr
    let username ← (dictGet fs "username").bind parseStr
    let watched_movies ←
      (dictGet fs "watched_movies").bind fun j =>
        match j with
        | .jarr xs => parseList parseMovie xs
        | _ => none
    let watched_series ←
      (dictGet fs "watched_series").bind fun j =>
        match j with
        | .jarr xs => parseList parseSeries xs
        | _ => none
    pure { user_id := user_id, username := username,
           watched_movies := watched_movies, watched_series := watched_series }
  | _ => none

def dumpReport (r : Report) : Json :=
  .jobj [("users", .jarr (r.users.map dumpUser)),
    ("movies_watched_by_all", .jarr (r.movies_watched_by_all.map dumpMovie)),
    ("movies_watched_by_some", .jarr (r.movies_watched_by_some.map dumpMovie)),
    ("series_fully_watched_by_all", .jarr (r.series_fully_watched_by_all.map dumpSeries)),
    ("series_fully_watched_by_some", .jarr (r.series_fully_watched_by_some.map dumpSeries)),
    ("series_partially_watched_by_all", .jarr (r.series_partially_watched_by_all.map dumpSeries)),
    ("series_partially_watched_by_some", .jarr (r.series_partially_watched_by_some.map dumpSeries)),
    ("jellyfin_url", dumpOptStr r.jellyfin_url),
    ("radarr_url", dumpOptStr r.radarr_url),
    ("sonarr_url", dumpOptStr r.sonarr_url)]

def parseMovieArr : Json → Option (List MovieInfo)
  | .jarr xs => parseList parseMovie xs
  | _ => none

def parseSeriesArr : Json → Option (List SeriesInfo)
  | .jarr xs => parseList parseSeries xs
  | _ => none

def parseReport : Json → Option Report
  | .jobj fs => do
    let users ←
      (dictGet fs "users").bind fun j =>
        match j with
        | .jarr xs => parseList parseUser xs
        | _ => none
    let mAll ← (dictGet fs "movies_watched_by_all").bind parseMovieArr
    let mSome ← (dictGet fs "movies_watched_by_some").bind parseMovieArr
    let sfAll ← (dictGet fs "series_fully_watched_by_all").bind parseSeriesArr
    let sfSome ← (dictGet fs "series_fully_watched_by_some").bind parseSeriesArr
    let spAll ← (dictGet fs "series_partially_watched_by_all").bind parseSeriesArr
    let spSome ← (dictGet fs "series_partially_watched_by_some").bind parseSeriesArr
    let jellyfin_url ← (dictGet fs "jellyfin_url").bind parseOptStr
    let radarr_url ← (dictGet fs "radarr_url").bind parseOptStr
    let sonarr_url ← (dictGet fs "sonarr_url").bind parseOptStr
    pure { users := users, movies_watched_by_all := mAll,
           movies_watched_by_some := mSome,
           series_fully_watched_by_all := sfAll,
           series_fully_watched_by_some := sfSome,
           series_partially_watched_by_all := spAll,
           series_partially_watched_by_some := spSome,
           jellyfin_url := jellyfin_url, radarr_url := radarr_url,
           sonarr_url := sonarr_url }
  | _ => none

/-! ### Presentation layer (`src/web/app.py`) and startup (`main.py`)

`GET /api/report` returns `current_report.model_dump()` when
`current_report` is truthy; a pydantic model instance is always truthy, so
the sentinel is produced only for `None` (report never set). -/

inductive ApiResponse where
  | reportJson (body : Json)
  | noReportError

def get_report (current_report : Option Report) : ApiResponse :=
  match current_report with
  | some r => .reportJson (dumpReport r)
  | none => .noReportError

/-- `main.py:73-76`: `collect_data` runs once and its result is passed to
`set_report` unconditionally, so after startup `current_report` is always
`some` of the collected report. -/
def startupReport (env : JellyfinEnv)
    (radarr_movies : List RadarrMovie) (sonarr_series : List SonarrSeries)
    (jellyfin_url radarr_url sonarr_url : Option String) : Option Report :=
  some (collect_data env radarr_movies sonarr_series
    jellyfin_url radarr_url sonarr_url)

/-! ### `authenticate` (`jellyfin.py:31`)

The exchange is modelled by its observable outcome: either the POST raises
a transport-level `httpx.HTTPError`, or a response with a status code and
a body arrives (`body = none` models a body that is not valid JSON).  The
`try` block catches exactly `httpx.HTTPError` (which includes the
`HTTPStatusError` from `raise_for_status` on 4xx/5xx); exceptions raised
by `response.json()` or by the `data[...]` subscripts are modelled by
`Except.error`. -/

inductive AuthResponse where
  | transportError
  | response (status : Nat) (body : Option Json)

def jsonField (j : Json) (k : String) : Option Json :=
  match j with
  | .jobj fs => dictGet fs k
  | _ => none

def authenticate : AuthResponse → Except String Bool
  | .transportError => .ok false
  | .response status body =>
    if 400 ≤ status then .ok false
    else
      match body with
      | none => .error "JSONDecodeError"
      | some data =>
        match jsonField data "AccessToken" with
        | none => .error "KeyError: AccessToken"
        | some _ =>
          match (jsonField data "User").bind fun u => jsonField u "Id" with
          | none => .error "KeyError: Id"
          | some _ => .ok true

/-! ### Association-list lemmas -/

theorem dictGet_dictSet {α : Type} (d : List (String × α)) (k k' : String) (v : α) :
    dictGet (dictSet d k v) k' = if k = k' then some v else dictGet d k' := by
  induction d with
  | nil => simp [dictSet, dictGet]
  | cons hd tl ih =>
    obtain ⟨k0, v0⟩ := hd
    by_cases h0 : k0 = k
    · subst h0
      by_cases h1 : k0 = k'
      · subst h1; simp [dictSet, dictGet]
      · simp [dictSet, dictGet, h1]
    · have hne : ¬k = k0 := fun e => h0 e.symm
      by_cases h1 : k0 = k'
      · subst h1
        simp [dictSet, dictGet, h0, hne]
      · simp [dictSet, dictGet, h0, h1, ih]

theorem dictGet_dictAppend {α : Type} (d : List (String × List α)) (k k' : String) (v : α) :
    dictGet (dictAppend d k v) k' =
      if k = k' then some ((dictGet d k').getD [] ++ [v]) else dictGet d k' := by
  induction d with
  | nil => simp [dictAppend, dictGet]
  | cons hd tl ih =>
    obtain ⟨k0, v0⟩ := hd
    by_cases h0 : k0 = k
    · subst h0
      by_cases h1 : k0 = k'
      · subst h1; simp [dictAppend, dictGet]
      · simp [dictAppend, dictGet, h1]
    · have hne : ¬k = k0 := fun e => h0 e.symm
      by_cases h1 : k0 = k'
      · subst h1
        simp [dictAppend, dictGet, h0, hne]
      · simp [dictAppend, dictGet, h0, h1, ih]

theorem dictGet_eq_none_iff {α : Type} (d : List (String × α)) (k : String) :
    dictGet d k = none ↔ k ∉ dictKeys d := by
  induction d with
  | nil => simp [dictGet, dictKeys]
  | cons hd tl ih =>
    obtain ⟨k0, v0⟩ := hd
    by_cases h0 : k0 = k
    · subst h0; simp [dictGet, dictKeys]
    · have hne : ¬k = k0 := fun e => h0 e.symm
      simp [dictGet, dictKeys, h0, hne] at *
      exact ih

theorem dictGet_mem {α : Type} {d : List (String × α)} {k : String} {v : α}
    (h : dictGet d k = some v) : (k, v) ∈ d := by
  induction d with
  | nil => simp [dictGet] at h
  | cons hd tl ih =>
    obtain ⟨k0, v0⟩ := hd
    by_cases h0 : k0 = k
    · subst h0
      simp [dictGet] at h
      simp [h]
    · simp [dictGet, h0] at h
      simp [ih h]

theorem mem_dictGet {α : Type} {d : List (String × α)} {k : String} {v : α}
    (hnd : (dictKeys d).Nodup) (h : (k, v) ∈ d) : dictGet d k = some v := by
  induction d with
  | nil => simp at h
  | cons hd tl ih =>
    obtain ⟨k0, v0⟩ := hd
    rw [dictKeys, List.map_cons, List.nodup_cons] at hnd
    rcases List.mem_cons.1 h with h1 | h1
    · injection h1 with e1 e2
      subst e1; subst e2
      simp [dictGet]
    · have hne : k0 ≠ k := fun e => hnd.1 (by
        rw [e]
        exact List.mem_map.2 ⟨(k, v), h1, rfl⟩)
      simp [dictGet, hne, ih hnd.2 h1]

theorem dictKeys_dictSet {α : Type} (d : List (String × α)) (k : String) (v : α) :
    dictKeys (dictSet d k v) = if k ∈ dictKeys d then dictKeys d else dictKeys d ++ [k] := by
  induction d with
  | nil => simp [dictSet, dictKeys]
  | cons hd tl ih =>
    obtain ⟨k0, v0⟩ := hd
    by_cases h0 : k0 = k
    · subst h0; simp [dictSet, dictKeys]
    · have hne : ¬k = k0 := fun e => h0 e.symm
      simp only [dictSet, if_neg h0, dictKeys, List.map_cons] at *
      rw [ih]
      by_cases hk : k ∈ tl.map Prod.fst <;>
        simp [hk, hne, List.cons_append]

theorem dictKeys_dictAppend {α : Type} (d : List (String × List α)) (k : String) (v : α) :
    dictKeys (dictAppend d k v) =
      if k ∈ dictKeys d then dictKeys d else dictKeys d ++ [k] := by
  induction d with
  | nil => simp [dictAppend, dictKeys]
  | cons hd tl ih =>
    obtain ⟨k0, v0⟩ := hd
    by_cases h0 : k0 = k
    · subst h0; simp [dictAppend, dictKeys]
    · have hne : ¬k = k0 := fun e => h0 e.symm
      simp only [dictAppend, if_neg h0, dictKeys, List.map_cons] at *
      rw [ih]
      by_cases hk : k ∈ tl.map Prod.fst <;>
        simp [hk, hne, List.cons_append]

theorem dictKeys_dictSet_nodup {α : Type} {d : List (String × α)} (k : String) (v : α)
    (hnd : (dictKeys d).Nodup) : (dictKeys (dictSet d k v)).Nodup := by
  rw [dictKeys_dictSet]
  by_cases hk : k ∈ dictKeys d
  · simpa [hk] using hnd
  · simp only [hk, if_false]
    simp [List.nodup_append, hnd, hk]

theorem dictKeys_dictAppend_nodup {α : Type} {d : List (String × List α)} (k : String) (v : α)
    (hnd : (dictKeys d).Nodup) : (dictKeys (dictAppend d k v)).Nodup := by
  rw [dictKeys_dictAppend]
  by_cases hk : k ∈ dictKeys d
  · simpa [hk] using hnd
  · simp only [hk, if_false]
    simp [List.nodup_append, hnd, hk]

/-! ### Characterizing the dictionary folds

`selValues pairs k` lists, in order, the values of the pairs whose key is
`k`: exactly what `defaultdict(list)` accumulates under `k`, and whose last
element is what plain `d[k] = v` assignment leaves under `k`. -/

theorem selValues_nil {α : Type} (k : String) : selValues ([] : List (String × α)) k = [] := rfl

theorem selValues_cons {α : Type} (k0 k : String) (v0 : α) (ps : List (String × α)) :
    selValues ((k0, v0) :: ps) k =
      if k0 = k then v0 :: selValues ps k else selValues ps k := by
  by_cases h : k0 = k <;> simp [selValues, List.filterMap_cons, h]

theorem selValues_append {α : Type} (xs ys : List (String × α)) (k : String) :
    selValues (xs ++ ys) k = selValues xs k ++ selValues ys k := by
  simp [selValues, List.filterMap_append]

theorem lastOr_nil {α : Type} (fb : Option α) : lastOr [] fb = fb := rfl

theorem lastOr_cons {α : Type} (v : α) (l : List α) (fb : Option α) :
    lastOr (v :: l) fb = lastOr l (some v) := rfl

theorem lastOr_eq {α : Type} (l : List α) (fb : Option α) :
    lastOr l fb = match l.getLast? with | some x => some x | none => fb := by
  induction l generalizing fb with
  | nil => rfl
  | cons v l ih =>
    rw [lastOr_cons, ih]
    cases l with
    | nil => rfl
    | cons c l' =>
      rw [List.getLast?_cons_cons]
      cases hg : (c :: l').getLast? with
      | none => exact absurd (List.getLast?_eq_none_iff.mp hg) (by simp)
      | some x => rfl

theorem lastOr_none {α : Type} (l : List α) : lastOr l none = l.getLast? := by
  rw [lastOr_eq]
  cases l.getLast? <;> rfl

theorem dictGet_foldl_dictSet {α : Type} (pairs : List (String × α))
    (d : List (String × α)) (k : String) :
    dictGet (pairs.foldl (fun d p => dictSet d p.1 p.2) d) k =
      lastOr (selValues pairs k) (dictGet d k) := by
  induction pairs generalizing d with
  | nil => simp [selValues_nil, lastOr_nil]
  | cons p ps ih =>
    obtain ⟨k0, v0⟩ := p
    simp only [List.foldl_cons]
    rw [ih, selValues_cons]
    by_cases h : k0 = k
    · subst h
      simp [lastOr_cons, dictGet_dictSet]
    · simp [h, dictGet_dictSet]

theorem dictGet_buildLatest {α : Type} (pairs : List (String × α)) (k : String) :
    dictGet (buildLatest pairs) k = (selValues pairs k).getLast? := by
  have h := dictGet_foldl_dictSet pairs [] k
  exact h.trans (lastOr_none _)

theorem dictGet_foldl_dictAppend_getD {α : Type} (pairs : List (String × α))
    (d : List (String × List α)) (k : String) :
    (dictGet (pairs.foldl (fun d p => dictAppend d p.1 p.2) d) k).getD [] =
      (dictGet d k).getD [] ++ selValues pairs k := by
  induction pairs generalizing d with
  | nil => simp [selValues_nil]
  | cons p ps ih =>
    obtain ⟨k0, v0⟩ := p
    simp only [List.foldl_cons]
    rw [ih, selValues_cons]
    by_cases h : k0 = k
    · subst h
      simp [dictGet_dictAppend]
    · simp [h, dictGet_dictAppend]

theorem dictGet_foldl_dictAppend_eq_none {α : Type} (pairs : List (String × α))
    (d : List (String × List α)) (k : String) :
    dictGet (pairs.foldl (fun d p => dictAppend d p.1 p.2) d) k = none ↔
      (dictGet d k = none ∧ selValues pairs k = []) := by
  induction pairs generalizing d with
  | nil => simp [selValues_nil]
  | cons p ps ih =>
    obtain ⟨k0, v0⟩ := p
    simp only [List.foldl_cons]
    rw [ih, selValues_cons]
    by_cases h : k0 = k
    · subst h
      simp [dictGet_dictAppend]
    · simp [h, dictGet_dictAppend]

theorem dictGet_buildWatchers_of_ne_nil {pairs : List (String × String)} {k : String}
    (h : selValues pairs k ≠ []) :
    dictGet (buildWatchers pairs) k = some (selValues pairs k) := by
  have h1 : (dictGet (buildWatchers pairs) k).getD [] = selValues pairs k :=
    dictGet_foldl_dictAppend_getD pairs [] k
  have h2 : ¬dictGet (buildWatchers pairs) k = none := fun he =>
    h ((dictGet_foldl_dictAppend_eq_none pairs [] k).mp he).2
  cases heq : dictGet (buildWatchers pairs) k with
  | none => exact absurd heq h2
  | some l =>
    rw [heq] at h1
    simpa using congrArg some h1

theorem dictGet_buildWatchers_of_nil {pairs : List (String × String)} {k : String}
    (h : selValues pairs k = []) :
    dictGet (buildWatchers pairs) k = none :=
  (dictGet_foldl_dictAppend_eq_none pairs [] k).mpr ⟨rfl, h⟩

theorem foldl_dictAppend_keys_nodup {α : Type} (pairs : List (String × α))
    (d : List (String × List α)) (hnd : (dictKeys d).Nodup) :
    (dictKeys (pairs.foldl (fun d p => dictAppend d p.1 p.2) d)).Nodup := by
  induction pairs generalizing d with
  | nil => exact hnd
  | cons p ps ih =>
    simp only [List.foldl_cons]
    exact ih _ (dictKeys_dictAppend_nodup _ _ hnd)

theorem buildWatchers_keys_nodup (pairs : List (String × String)) :
    (dictKeys (buildWatchers pairs)).Nodup :=
  foldl_dictAppend_keys_nodup pairs [] (by simp [dictKeys])

theorem foldl_dictSet_keys_nodup {α : Type} (pairs : List (String × α))
    (d : List (String × α)) (hnd : (dictKeys d).Nodup) :
    (dictKeys (pairs.foldl (fun d p => dictSet d p.1 p.2) d)).Nodup := by
  induction pairs generalizing d with
  | nil => exact hnd
  | cons p ps ih =>
    simp only [List.foldl_cons]
    exact ih _ (dictKeys_dictSet_nodup _ _ hnd)

theorem buildLatest_keys_nodup {α : Type} (pairs : List (String × α)) :
    (dictKeys (buildLatest pairs)).Nodup :=
  foldl_dictSet_keys_nodup pairs [] (by simp [dictKeys])

theorem mem_buildWatchers {pairs : List (String × String)} {k : String} {ws : List String}
    (h : (k, ws) ∈ buildWatchers pairs) :
    ws = selValues pairs k ∧ ws ≠ [] := by
  have hget := mem_dictGet (buildWatchers_keys_nodup pairs) h
  by_cases hsel : selValues pairs k = []
  · rw [dictGet_buildWatchers_of_nil hsel] at hget
    exact absurd hget (by simp)
  · rw [dictGet_buildWatchers_of_ne_nil hsel] at hget
    have : ws = selValues pairs k := by injection hget.symm
    exact ⟨this, this ▸ hsel⟩

theorem selValues_flatMap {α β : Type} (l : List β) (f : β → List (String × α)) (k : String) :
    selValues (l.flatMap f) k = l.flatMap fun b => selValues (f b) k := by
  induction l with
  | nil => simp [selValues_nil]
  | cons b bs ih => simp [List.flatMap_cons, selValues_append, ih]

theorem selValues_map_pair {α β : Type} (l : List β) (key : β → String) (val : β → α)
    (k : String) :
    selValues (l.map fun b => (key b, val b)) k = (l.filter fun b => key b == k).map val := by
  induction l with
  | nil => simp [selValues_nil]
  | cons b bs ih =>
    by_cases h : key b = k
    · simp [selValues_cons, h, ih]
    · simp [selValues_cons, h, ih, List.filter_cons]

/-! ### Characterizing the categorization loops -/

theorem categorizeMovies_fst (total : Nat) (data : List (String × MovieInfo))
    (wd : List (String × List String)) :
    (categorizeMovies total data wd).1 = wd.filterMap fun p =>
      match dictGet data p.1 with
      | some m => if p.2.length = total then some { m with watched_by_users := p.2 } else none
      | none => none := by
  induction wd with
  | nil => rfl
  | cons p rest ih =>
    obtain ⟨k0, ws0⟩ := p
    simp only [categorizeMovies, List.filterMap_cons]
    cases h0 : dictGet data k0 with
    | none => simpa [h0] using ih
    | some m =>
      by_cases hl : ws0.length = total <;> simp [h0, hl, ih]

theorem categorizeMovies_snd (total : Nat) (data : List (String × MovieInfo))
    (wd : List (String × List String)) :
    (categorizeMovies total data wd).2 = wd.filterMap fun p =>
      match dictGet data p.1 with
      | some m => if p.2.length = total then none else some { m with watched_by_users := p.2 }
      | none => none := by
  induction wd with
  | nil => rfl
  | cons p rest ih =>
    obtain ⟨k0, ws0⟩ := p
    simp only [categorizeMovies, List.filterMap_cons]
    cases h0 : dictGet data k0 with
    | none => simpa [h0] using ih
    | some m =>
      by_cases hl : ws0.length = total <;> simp [h0, hl, ih]

theorem isSome_dictGet_dictSet {α : Type} (st : List (String × α)) (k0 k' : String) (v : α)
    (h : (dictGet st k0).isSome = true) :
    (dictGet (dictSet st k0 v) k').isSome = (dictGet st k').isSome := by
  rw [dictGet_dictSet]
  by_cases hk : k0 = k'
  · subst hk
    cases hg : dictGet st k0 with
    | none => rw [hg] at h; simp at h
    | some s => simp
  · simp [hk]

theorem fileSeries_store_get (total : Nat) (wd : List (String × List String))
    (st : List (String × SeriesInfo)) (k : String) (hnd : (dictKeys wd).Nodup) :
    dictGet (fileSeries total wd st).1 k =
      match dictGet st k, dictGet wd k with
      | some s, some ws => some { s with watched_by_users := ws }
      | some s, none => some s
      | none, _ => none := by
  induction wd generalizing st with
  | nil => cases h : dictGet st k <;> simp [fileSeries, dictGet, h]
  | cons p rest ih =>
    obtain ⟨k0, ws0⟩ := p
    rw [dictKeys, List.map_cons, List.nodup_cons] at hnd
    simp only [fileSeries]
    cases h0 : dictGet st k0 with
    | none =>
      rw [ih st hnd.2]
      by_cases hk : k0 = k
      · subst hk
        rw [h0]
        try simp [dictGet]
      · simp [dictGet, hk]
    | some s =>
      have hfst : (if ws0.length = total then
          ((fileSeries total rest (dictSet st k0 { s with watched_by_users := ws0 })).1,
            k0 :: (fileSeries total rest (dictSet st k0 { s with watched_by_users := ws0 })).2.1,
            (fileSeries total rest (dictSet st k0 { s with watched_by_users := ws0 })).2.2)
        else
          ((fileSeries total rest (dictSet st k0 { s with watched_by_users := ws0 })).1,
            (fileSeries total rest (dictSet st k0 { s with watched_by_users := ws0 })).2.1,
            k0 :: (fileSeries total rest (dictSet st k0 { s with watched_by_users := ws0 })).2.2)).1
          = (fileSeries total rest (dictSet st k0 { s with watched_by_users := ws0 })).1 := by
        by_cases hl : ws0.length = total <;> simp [hl]
      rw [hfst, ih _ hnd.2, dictGet_dictSet]
      by_cases hk : k0 = k
      · subst hk
        have hrest : dictGet rest k0 = none :=
          (dictGet_eq_none_iff rest k0).mpr hnd.1
        rw [h0, hrest]
        simp [dictGet]
      · simp [dictGet, hk]

theorem fileSeries_allKeys (total : Nat) (wd : List (String × List String))
    (st : List (String × SeriesInfo)) :
    (fileSeries total wd st).2.1 = wd.filterMap fun p =>
      if (dictGet st p.1).isSome = true ∧ p.2.length = total then some p.1 else none := by
  induction wd generalizing st with
  | nil => rfl
  | cons p rest ih =>
    obtain ⟨k0, ws0⟩ := p
    simp only [fileSeries, List.filterMap_cons]
    cases h0 : dictGet st k0 with
    | none =>
      rw [ih st]
      simp [h0]
    | some s =>
      have hcongr : ∀ q ∈ rest,
          (if (dictGet (dictSet st k0 { s with watched_by_users := ws0 }) q.1).isSome = true ∧
              q.2.length = total then some q.1 else none) =
          (if (dictGet st q.1).isSome = true ∧ q.2.length = total then some q.1 else none) := by
        intro q _
        rw [isSome_dictGet_dictSet st k0 q.1 _ (by simp [h0])]
      by_cases hl : ws0.length = total
      · simp only [hl, ite_true, h0, Option.isSome_some, true_and]
        rw [ih, List.filterMap_congr hcongr]
        try simp
      · simp only [h0, Option.isSome_some, true_and, hl, ite_false]
        rw [ih, List.filterMap_congr hcongr]
        try simp [hl]

theorem fileSeries_someKeys (total : Nat) (wd : List (String × List String))
    (st : List (String × SeriesInfo)) :
    (fileSeries total wd st).2.2 = wd.filterMap fun p =>
      if (dictGet st p.1).isSome = true ∧ ¬p.2.length = total then some p.1 else none := by
  induction wd generalizing st with
  | nil => rfl
  | cons p rest ih =>
    obtain ⟨k0, ws0⟩ := p
    simp only [fileSeries, List.filterMap_cons]
    cases h0 : dictGet st k0 with
    | none =>
      rw [ih st]
      simp [h0]
    | some s =>
      have hcongr : ∀ q ∈ rest,
          (if (dictGet (dictSet st k0 { s with watched_by_users := ws0 }) q.1).isSome = true ∧
              ¬q.2.length = total then some q.1 else none) =
          (if (dictGet st q.1).isSome = true ∧ ¬q.2.length = total then some q.1 else none) := by
        intro q _
        rw [isSome_dictGet_dictSet st k0 q.1 _ (by simp [h0])]
      by_cases hl : ws0.length = total
      · simp only [hl, h0, Option.isSome_some, true_and]
        rw [ih, List.filterMap_congr hcongr]
        try simp
      · simp only [h0, Option.isSome_some, true_and, hl, ite_false]
        rw [ih, List.filterMap_congr hcongr]
        try simp [hl]

/-! ### Unfolding `generateReport` on a non-empty user list -/

theorem generateReport_eq (ju ru su : Option String) (u : List UserWatchData)
    (h : u.isEmpty = false) :
    generateReport ju ru su u =
      { users := u
        movies_watched_by_all :=
          (categorizeMovies u.length (buildLatest (movieDataPairs u))
            (buildWatchers (moviePairs u))).1
        movies_watched_by_some :=
          (categorizeMovies u.length (buildLatest (movieDataPairs u))
            (buildWatchers (moviePairs u))).2
        series_fully_watched_by_all :=
          resolveKeys
            (fileSeries u.length (buildWatchers (seriesPairsPart u))
              (fileSeries u.length (buildWatchers (seriesPairsFull u))
                (buildLatest (seriesDataPairs u))).1).1
            (fileSeries u.length (buildWatchers (seriesPairsFull u))
              (buildLatest (seriesDataPairs u))).2.1
        series_fully_watched_by_some :=
          resolveKeys
            (fileSeries u.length (buildWatchers (seriesPairsPart u))
              (fileSeries u.length (buildWatchers (seriesPairsFull u))
                (buildLatest (seriesDataPairs u))).1).1
            (fileSeries u.length (buildWatchers (seriesPairsFull u))
              (buildLatest (seriesDataPairs u))).2.2
        series_partially_watched_by_all :=
          resolveKeys
            (fileSeries u.length (buildWatchers (seriesPairsPart u))
              (fileSeries u.length (buildWatchers (seriesPairsFull u))
                (buildLatest (seriesDataPairs u))).1).1
            (fileSeries u.length (buildWatchers (seriesPairsPart u))
              (fileSeries u.length (buildWatchers (seriesPairsFull u))
                (buildLatest (seriesDataPairs u))).1).2.1
        series_partially_watched_by_some :=
          resolveKeys
            (fileSeries u.length (buildWatchers (seriesPairsPart u))
              (fileSeries u.length (buildWatchers (seriesPairsFull u))
                (buildLatest (seriesDataPairs u))).1).1
            (fileSeries u.length (buildWatchers (seriesPairsPart u))
              (fileSeries u.length (buildWatchers (seriesPairsFull u))
                (buildLatest (seriesDataPairs u))).1).2.2
        jellyfin_url := ju
        radarr_url := ru
        sonarr_url := su } := by
  rw [generateReport]
  simp only [h, Bool.false_eq_true, if_false]

theorem generateReport_empty (ju ru su : Option String) :
    generateReport ju ru su [] =
      { users := ([] : List UserWatchData), jellyfin_url := ju,
        radarr_url := ru, sonarr_url := su } := by
  rw [generateReport]
  simp

/-! ### Counting contributions per grouping key -/

theorem selValues_moviePairs (u : List UserWatchData) (k : String) :
    selValues (moviePairs u) k =
      u.flatMap fun ud =>
        (ud.watched_movies.filter fun m => m.groupKey == k).map fun _ => ud.username := by
  simp [moviePairs, selValues_flatMap, selValues_map_pair]

theorem selValues_movieDataPairs (u : List UserWatchData) (k : String) :
    selValues (movieDataPairs u) k = movieContribs u k := by
  simp [movieDataPairs, movieContribs, selValues_flatMap, selValues_map_pair]

theorem selValues_seriesDataPairs (u : List UserWatchData) (k : String) :
    selValues (seriesDataPairs u) k = seriesContribs u k := by
  simp [seriesDataPairs, seriesContribs, selValues_flatMap, selValues_map_pair]

theorem selValues_seriesPairsFull (u : List UserWatchData) (k : String) :
    selValues (seriesPairsFull u) k =
      u.flatMap fun ud =>
        ((ud.watched_series.filter fun s => s.is_fully_watched).filter
          fun s => s.groupKey == k).map fun _ => ud.username := by
  simp [seriesPairsFull, selValues_flatMap, selValues_map_pair]

theorem selValues_seriesPairsPart (u : List UserWatchData) (k : String) :
    selValues (seriesPairsPart u) k =
      u.flatMap fun ud =>
        ((ud.watched_series.filter fun s => !s.is_fully_watched).filter
          fun s => s.groupKey == k).map fun _ => ud.username := by
  simp [seriesPairsPart, selValues_flatMap, selValues_map_pair]

theorem length_selValues_moviePairs (u : List UserWatchData) (k : String) :
    (selValues (moviePairs u) k).length =
      (u.map fun ud => ud.watched_movies.countP fun m => m.groupKey == k).sum := by
  rw [selValues_moviePairs, List.length_flatMap]
  congr 1
  simp [Function.comp_def, List.countP_eq_length_filter]

theorem length_selValues_seriesPairsFull (u : List UserWatchData) (k : String) :
    (selValues (seriesPairsFull u) k).length =
      (u.map fun ud =>
        ud.watched_series.countP fun s => (s.groupKey == k) && s.is_fully_watched).sum := by
  rw [selValues_seriesPairsFull, List.length_flatMap]
  simp [Function.comp_def, List.filter_filter, List.countP_eq_length_filter]

theorem length_selValues_seriesPairsPart (u : List UserWatchData) (k : String) :
    (selValues (seriesPairsPart u) k).length =
      (u.map fun ud =>
        ud.watched_series.countP fun s => (s.groupKey == k) && !s.is_fully_watched).sum := by
  rw [selValues_seriesPairsPart, List.length_flatMap]
  simp [Function.comp_def, List.filter_filter, List.countP_eq_length_filter]

theorem countP_key_le_one {β : Type} (l : List β) (key : β → String) (k : String)
    (hnd : (l.map key).Nodup) : (l.countP fun b => key b == k) ≤ 1 := by
  induction l with
  | nil => simp
  | cons b bs ih =>
    rw [List.map_cons, List.nodup_cons] at hnd
    rw [List.countP_cons]
    by_cases h : (key b == k) = true
    · have h' : key b = k := by simpa using h
      have hz : (bs.countP fun x => key x == k) = 0 := by
        rw [List.countP_eq_zero]
        intro x hx hbx
        exact hnd.1 (List.mem_map.2 ⟨x, hx, by
          have : key x = k := by simpa using hbx
          rw [this, h']⟩)
      simp [h, hz]
    · simpa [h] using ih hnd.2

theorem countP_key_split (l : List SeriesInfo) (k : String) :
    (l.countP fun s => (s.groupKey == k) && s.is_fully_watched) +
      (l.countP fun s => (s.groupKey == k) && !s.is_fully_watched) =
      l.countP fun s => s.groupKey == k := by
  induction l with
  | nil => rfl
  | cons s l ih =>
    simp only [List.countP_cons]
    by_cases h1 : (s.groupKey == k) = true <;>
      by_cases h2 : s.is_fully_watched = true <;>
        simp [h1, h2] <;> omega

theorem sum_le_length_of_le_one (l : List Nat) (h : ∀ x ∈ l, x ≤ 1) :
    l.sum ≤ l.length := by
  induction l with
  | nil => simp
  | cons x xs ih =>
    have hx := h x (by simp)
    have hxs := ih fun y hy => h y (by simp [hy])
    simp only [List.sum_cons, List.length_cons]
    omega

theorem sum_map_add (l : List UserWatchData) (f g : UserWatchData → Nat) :
    (l.map fun b => f b + g b).sum = (l.map f).sum + (l.map g).sum := by
  induction l with
  | nil => rfl
  | cons b bs ih => simp [ih]; omega

theorem length_selValues_moviePairs_le (u : List UserWatchData) (k : String)
    (Hm : ∀ ud ∈ u, (ud.watched_movies.map MovieInfo.groupKey).Nodup) :
    (selValues (moviePairs u) k).length ≤ u.length := by
  rw [length_selValues_moviePairs]
  calc (u.map fun ud => ud.watched_movies.countP fun m => m.groupKey == k).sum
      ≤ (u.map fun ud => ud.watched_movies.countP fun m => m.groupKey == k).length := by
        apply sum_le_length_of_le_one
        intro x hx
        obtain ⟨ud, hud, rfl⟩ := List.mem_map.1 hx
        exact countP_key_le_one _ MovieInfo.groupKey k (Hm ud hud)
    _ = u.length := List.length_map u _

theorem length_selValues_series_both_le (u : List UserWatchData) (k : String)
    (Hs : ∀ ud ∈ u, (ud.watched_series.map SeriesInfo.groupKey).Nodup) :
    (selValues (seriesPairsFull u) k).length +
      (selValues (seriesPairsPart u) k).length ≤ u.length := by
  rw [length_selValues_seriesPairsFull, length_selValues_seriesPairsPart, ← sum_map_add]
  calc (u.map fun ud =>
          (ud.watched_series.countP fun s => (s.groupKey == k) && s.is_fully_watched) +
          (ud.watched_series.countP fun s => (s.groupKey == k) && !s.is_fully_watched)).sum
      ≤ (u.map fun ud =>
          (ud.watched_series.countP fun s => (s.groupKey == k) && s.is_fully_watched) +
          (ud.watched_series.countP fun s => (s.groupKey == k) && !s.is_fully_watched)).length := by
        apply sum_le_length_of_le_one
        intro x hx
        obtain ⟨ud, hud, rfl⟩ := List.mem_map.1 hx
        rw [countP_key_split]
        exact countP_key_le_one _ SeriesInfo.groupKey k (Hs ud hud)
    _ = u.length := List.length_map u _

/-! ### Injectivity of the Python `str` rendering of `Optional[int]` -/

theorem natDecimalDigits_eq (n : Nat) :
    natDecimalDigits n =
      if n < 10 then [n] else natDecimalDigits (n / 10) ++ [n % 10] := by
  rw [natDecimalDigits]
  by_cases h : n < 10 <;> simp [h]

theorem decimalValue_append (l : List Nat) (d : Nat) :
    decimalValue (l ++ [d]) = decimalValue l * 10 + d := by
  simp [decimalValue, List.foldl_append]

theorem decimalValue_natDecimalDigits (n : Nat) :
    decimalValue (natDecimalDigits n) = n := by
  induction n using Nat.strong_induction_on with
  | _ n ih =>
    rw [natDecimalDigits_eq]
    by_cases h : n < 10
    · simp [h, decimalValue]
    · rw [if_neg h, decimalValue_append, ih (n / 10) (Nat.div_lt_self (by omega) (by omega))]
      omega

theorem natDecimalDigits_ne_nil (n : Nat) : natDecimalDigits n ≠ [] := by
  rw [natDecimalDigits_eq]
  by_cases h : n < 10 <;> simp [h]

theorem natDecimalDigits_lt_ten (n : Nat) : ∀ d ∈ natDecimalDigits n, d < 10 := by
  induction n using Nat.strong_induction_on with
  | _ n ih =>
    rw [natDecimalDigits_eq]
    by_cases h : n < 10
    · simp [h]
    · rw [if_neg h]
      intro d hd
      rcases List.mem_append.1 hd with hd | hd
      · exact ih (n / 10) (Nat.div_lt_self (by omega) (by omega)) d hd
      · simp at hd
        omega

theorem natDecimalDigits_inj {m n : Nat} (h : natDecimalDigits m = natDecimalDigits n) :
    m = n := by
  have := congrArg decimalValue h
  rwa [decimalValue_natDecimalDigits, decimalValue_natDecimalDigits] at this

theorem digitChar_inj_lt {a b : Nat} (ha : a < 10) (hb : b < 10)
    (h : Nat.digitChar a = Nat.digitChar b) : a = b := by
  have key : ∀ (x y : Fin 10), Nat.digitChar x.val = Nat.digitChar y.val → x = y := by decide
  have := key ⟨a, ha⟩ ⟨b, hb⟩ h
  exact congrArg Fin.val this

theorem digitChar_not_special (d : Nat) (hd : d < 10) :
    Nat.digitChar d ≠ '-' ∧ Nat.digitChar d ≠ '_' ∧ Nat.digitChar d ≠ 'N' := by
  have key : ∀ (x : Fin 10),
      Nat.digitChar x.val ≠ '-' ∧ Nat.digitChar x.val ≠ '_' ∧ Nat.digitChar x.val ≠ 'N' := by
    decide
  exact key ⟨d, hd⟩

theorem map_digitChar_inj {l1 l2 : List Nat} (h1 : ∀ d ∈ l1, d < 10) (h2 : ∀ d ∈ l2, d < 10)
    (h : l1.map Nat.digitChar = l2.map Nat.digitChar) : l1 = l2 := by
  induction l1 generalizing l2 with
  | nil =>
    cases l2 with
    | nil => rfl
    | cons b bs => simp at h
  | cons a as ih =>
    cases l2 with
    | nil => simp at h
    | cons b bs =>
      simp only [List.map_cons, List.cons.injEq] at h
      have ha := h1 a (by simp)
      have hb := h2 b (by simp)
      rw [digitChar_inj_lt ha hb h.1,
        ih (fun d hd => h1 d (by simp [hd])) (fun d hd => h2 d (by simp [hd])) h.2]

theorem natStr_inj {m n : Nat} (h : natStr m = natStr n) : m = n := by
  have hd : (natDecimalDigits m).map Nat.digitChar = (natDecimalDigits n).map Nat.digitChar :=
    congrArg String.data h
  exact natDecimalDigits_inj
    (map_digitChar_inj (natDecimalDigits_lt_ten m) (natDecimalDigits_lt_ten n) hd)

theorem natStr_data (n : Nat) : (natStr n).data = (natDecimalDigits n).map Nat.digitChar := rfl

theorem natStr_head (n : Nat) :
    ∃ d l, (natStr n).data = Nat.digitChar d :: l ∧ d < 10 := by
  rw [natStr_data]
  cases hd : natDecimalDigits n with
  | nil => exact absurd hd (natDecimalDigits_ne_nil n)
  | cons d rest =>
    exact ⟨d, rest.map Nat.digitChar, by simp,
      natDecimalDigits_lt_ten n d (by rw [hd]; simp)⟩

theorem mem_natStr_data (n : Nat) (c : Char) (hc : c ∈ (natStr n).data) :
    ∃ d, d < 10 ∧ c = Nat.digitChar d := by
  rw [natStr_data] at hc
  obtain ⟨d, hd, rfl⟩ := List.mem_map.1 hc
  exact ⟨d, natDecimalDigits_lt_ten n d hd, rfl⟩

theorem intStr_data_cases (i : Int) :
    (i < 0 ∧ (intStr i).data = '-' :: (natStr i.natAbs).data) ∨
      (0 ≤ i ∧ (intStr i).data = (natStr i.toNat).data) := by
  by_cases h : i < 0
  · left
    refine ⟨h, ?_⟩
    rw [intStr, if_pos h, String.data_append]
    rfl
  · right
    exact ⟨by omega, by rw [intStr, if_neg h]⟩

theorem intStr_ne_None (i : Int) : intStr i ≠ "None" := by
  intro h
  have hdata := congrArg String.data h
  rcases intStr_data_cases i with ⟨_, hc⟩ | ⟨_, hc⟩
  · rw [hc] at hdata
    have : '-' = 'N' := by
      have : ('-' :: (natStr i.natAbs).data) = "None".data := hdata
      simpa [show "None".data = ['N', 'o', 'n', 'e'] from rfl] using congrArg List.head? this
    simp at this
  · rw [hc] at hdata
    obtain ⟨d, l, hl, hd⟩ := natStr_head i.toNat
    rw [hl] at hdata
    have : Nat.digitChar d = 'N' := by
      have : (Nat.digitChar d :: l) = "None".data := hdata
      simpa [show "None".data = ['N', 'o', 'n', 'e'] from rfl] using congrArg List.head? this
    exact (digitChar_not_special d hd).2.2 this

theorem intStr_inj {i j : Int} (h : intStr i = intStr j) : i = j := by
  have hdata := congrArg String.data h
  rcases intStr_data_cases i with ⟨hi, hci⟩ | ⟨hi, hci⟩ <;>
    rcases intStr_data_cases j with ⟨hj, hcj⟩ | ⟨hj, hcj⟩
  · rw [hci, hcj] at hdata
    simp only [List.cons.injEq] at hdata
    have : i.natAbs = j.natAbs := natStr_inj (String.ext hdata.2)
    omega
  · rw [hci, hcj] at hdata
    obtain ⟨d, l, hl, hd⟩ := natStr_head j.toNat
    rw [hl] at hdata
    have : '-' = Nat.digitChar d := by
      simpa using congrArg List.head? hdata
    exact absurd this.symm (digitChar_not_special d hd).1
  · rw [hci, hcj] at hdata
    obtain ⟨d, l, hl, hd⟩ := natStr_head i.toNat
    rw [hl] at hdata
    have : Nat.digitChar d = '-' := by
      simpa using congrArg List.head? hdata
    exact absurd this (digitChar_not_special d hd).1
  · rw [hci, hcj] at hdata
    have : i.toNat = j.toNat := natStr_inj (String.ext hdata)
    omega

theorem optIntStr_inj {y1 y2 : Option Int} (h : optIntStr y1 = optIntStr y2) : y1 = y2 := by
  cases y1 with
  | none =>
    cases y2 with
    | none => rfl
    | some j => exact absurd h.symm (intStr_ne_None j)
  | some i =>
    cases y2 with
    | none => exact absurd h (intStr_ne_None i)
    | some j => exact congrArg some (intStr_inj h)

theorem underscore_not_mem_optIntStr (y : Option Int) : '_' ∉ (optIntStr y).data := by
  cases y with
  | none => decide
  | some i =>
    intro hmem
    simp only [optIntStr] at hmem
    rcases intStr_data_cases i with ⟨_, hc⟩ | ⟨_, hc⟩ <;> rw [hc] at hmem
    · rcases List.mem_cons.1 hmem with h1 | h1
      · simp at h1
      · obtain ⟨d, hd, he⟩ := mem_natStr_data i.natAbs '_' h1
        exact (digitChar_not_special d hd).2.1 he.symm
    · obtain ⟨d, hd, he⟩ := mem_natStr_data i.toNat '_' hmem
      exact (digitChar_not_special d hd).2.1 he.symm

/-! ### The `title_year` key determines title and year -/

theorem append_marker_first {u : Char} :
    ∀ (a1 a2 b1 b2 : List Char), u ∉ a1 → u ∉ a2 →
      a1 ++ u :: b1 = a2 ++ u :: b2 → a1 = a2 ∧ b1 = b2 := by
  intro a1
  induction a1 with
  | nil =>
    intro a2 b1 b2 _ h2 h
    cases a2 with
    | nil => simpa using h
    | cons c a2' =>
      simp only [List.nil_append, List.cons_append, List.cons.injEq] at h
      exact absurd (h.1 ▸ List.mem_cons_self c a2') h2
  | cons c a1' ih =>
    intro a2 b1 b2 h1 h2 h
    cases a2 with
    | nil =>
      simp only [List.nil_append, List.cons_append, List.cons.injEq] at h
      exact absurd (h.1 ▸ List.mem_cons_self c a1') h1
    | cons c2 a2' =>
      simp only [List.cons_append, List.cons.injEq] at h
      have h1' : u ∉ a1' := fun hm => h1 (List.mem_cons_of_mem c hm)
      have h2' : u ∉ a2' := fun hm => h2 (List.mem_cons_of_mem c2 hm)
      obtain ⟨e1, e2⟩ := ih a2' b1 b2 h1' h2' h.2
      exact ⟨by rw [h.1, e1], e2⟩

theorem append_marker_last {u : Char} (a1 a2 b1 b2 : List Char)
    (h1 : u ∉ b1) (h2 : u ∉ b2) (h : a1 ++ u :: b1 = a2 ++ u :: b2) :
    a1 = a2 ∧ b1 = b2 := by
  have hr := congrArg List.reverse h
  simp only [List.reverse_append, List.reverse_cons, List.append_assoc,
    List.singleton_append] at hr
  obtain ⟨e1, e2⟩ := append_marker_first b1.reverse b2.reverse a1.reverse a2.reverse
    (by simpa using h1) (by simpa using h2) hr
  constructor
  · have := congrArg List.reverse e2
    simpa using this
  · have := congrArg List.reverse e1
    simpa using this

theorem key_parts_inj (t1 t2 s1 s2 : String) (h1 : '_' ∉ s1.data) (h2 : '_' ∉ s2.data)
    (h : t1 ++ "_" ++ s1 = t2 ++ "_" ++ s2) : t1 = t2 ∧ s1 = s2 := by
  have hdata := congrArg String.data h
  rw [String.data_append, String.data_append, String.data_append, String.data_append] at hdata
  simp only [List.append_assoc, show "_".data = ['_'] from rfl,
    List.singleton_append] at hdata
  obtain ⟨e1, e2⟩ := append_marker_last t1.data t2.data s1.data s2.data h1 h2 hdata
  exact ⟨String.ext e1, String.ext e2⟩

theorem movie_groupKey_eq_iff (m1 m2 : MovieInfo) :
    m1.groupKey = m2.groupKey ↔ (m1.title = m2.title ∧ m1.year = m2.year) := by
  constructor
  · intro h
    obtain ⟨e1, e2⟩ := key_parts_inj m1.title m2.title (optIntStr m1.year) (optIntStr m2.year)
      (underscore_not_mem_optIntStr m1.year) (underscore_not_mem_optIntStr m2.year) h
    exact ⟨e1, optIntStr_inj e2⟩
  · intro ⟨e1, e2⟩
    rw [MovieInfo.groupKey, MovieInfo.groupKey, e1, e2]

theorem series_groupKey_eq_iff (s1 s2 : SeriesInfo) :
    s1.groupKey = s2.groupKey ↔ (s1.title = s2.title ∧ s1.year = s2.year) := by
  constructor
  · intro h
    obtain ⟨e1, e2⟩ := key_parts_inj s1.title s2.title (optIntStr s1.year) (optIntStr s2.year)
      (underscore_not_mem_optIntStr s1.year) (underscore_not_mem_optIntStr s2.year) h
    exact ⟨e1, optIntStr_inj e2⟩
  · intro ⟨e1, e2⟩
    rw [SeriesInfo.groupKey, SeriesInfo.groupKey, e1, e2]

/-! ### Claim theorems -/

/-- C3: for every fetched episode list, the triple returned by
`is_series_fully_watched` has a boolean component that is true iff the
watched-episode count equals the total-episode count and the total count
is strictly positive; a total count of 0 forces the boolean to be
false. -/
theorem C3_is_series_fully_watched_iff (episodes : List Episode) :
    ((is_series_fully_watched episodes).1 = true ↔
      ((is_series_fully_watched episodes).2.1 = (is_series_fully_watched episodes).2.2 ∧
        0 < (is_series_fully_watched episodes).2.2)) ∧
    ((is_series_fully_watched episodes).2.2 = 0 →
      (is_series_fully_watched episodes).1 = false) := by
  by_cases h : episodes.isEmpty
  · constructor
    · simp [is_series_fully_watched, h]
    · intro _
      simp [is_series_fully_watched, h]
  · have hlen : episodes.length ≠ 0 := by
      cases episodes with
      | nil => simp at h
      | cons e es => simp
    constructor
    · simp [is_series_fully_watched, h]
      try omega
    · intro ht
      rw [is_series_fully_watched, if_neg h] at ht
      exact absurd ht hlen

/-- C3 witness: at the empty episode list the returned triple is
`(false, 0, 0)`, and the theorem's zero-total implication applies. -/
theorem C3_witness :
    (is_series_fully_watched []).2.2 = 0 ∧ (is_series_fully_watched []).1 = false :=
  ⟨rfl, (C3_is_series_fully_watched_iff []).2 rfl⟩

/-- C5: when Jellyfin authentication fails, `collect_data` returns (without
raising) a report with empty `users` and all six buckets empty; since
`main` still passes that report to `set_report`, `/api/report` serves the
serialized report object, not the `{"error": "No report available"}`
sentinel. -/
theorem C5_auth_failure_empty_report_still_served (users : List JFUser)
    (wm : String → List JFMovie) (ws : String → List JFSeries)
    (eps : Option String → String → List Episode)
    (rm : List RadarrMovie) (ss : List SonarrSeries) (ju ru su : Option String) :
    (collect_data ⟨false, users, wm, ws, eps⟩ rm ss ju ru su).users = [] ∧
    (collect_data ⟨false, users, wm, ws, eps⟩ rm ss ju ru su).movies_watched_by_all = [] ∧
    (collect_data ⟨false, users, wm, ws, eps⟩ rm ss ju ru su).movies_watched_by_some = [] ∧
    (collect_data ⟨false, users, wm, ws, eps⟩ rm ss ju ru su).series_fully_watched_by_all = [] ∧
    (collect_data ⟨false, users, wm, ws, eps⟩ rm ss ju ru su).series_fully_watched_by_some = [] ∧
    (collect_data ⟨false, users, wm, ws, eps⟩ rm ss ju ru su).series_partially_watched_by_all = [] ∧
    (collect_data ⟨false, users, wm, ws, eps⟩ rm ss ju ru su).series_partially_watched_by_some = [] ∧
    get_report (startupReport ⟨false, users, wm, ws, eps⟩ rm ss ju ru su) =
      ApiResponse.reportJson
        (dumpReport (collect_data ⟨false, users, wm, ws, eps⟩ rm ss ju ru su)) ∧
    get_report (startupReport ⟨false, users, wm, ws, eps⟩ rm ss ju ru su) ≠
      ApiResponse.noReportError := by
  refine ⟨rfl, rfl, rfl, rfl, rfl, rfl, rfl, rfl, ?_⟩
  intro h
  exact ApiResponse.noConfusion h

/-- C6: the cross-tabulation key (`title_year`, as built by the
accumulation loops through `MovieInfo.groupKey` / `SeriesInfo.groupKey`)
identifies two items exactly when their title and year coincide —
external identifiers play no role — and a missing year is rendered as the
literal string `"None"`, so two same-titled items that both lack a year
share one key. -/
theorem C6_title_year_key_unification (m1 m2 : MovieInfo) (s1 s2 : SeriesInfo) :
    (m1.groupKey = m2.groupKey ↔ (m1.title = m2.title ∧ m1.year = m2.year)) ∧
    (s1.groupKey = s2.groupKey ↔ (s1.title = s2.title ∧ s1.year = s2.year)) ∧
    ({ m1 with year := none } : MovieInfo).groupKey = m1.title ++ "_" ++ "None" ∧
    ({ s1 with year := none } : SeriesInfo).groupKey = s1.title ++ "_" ++ "None" :=
  ⟨movie_groupKey_eq_iff m1 m2, series_groupKey_eq_iff s1 s2, rfl, rfl⟩

/-- C8 counterexample: a 200 response whose JSON body lacks the
`AccessToken` key makes `authenticate` raise (`data["AccessToken"]` is a
`KeyError`, which is not an `httpx.HTTPError`), so the operation does not
return a boolean for every server response. -/
theorem C8_counterexample :
    authenticate (AuthResponse.response 200 (some (Json.jobj []))) =
      Except.error "KeyError: AccessToken" := rfl

/-- C8 amended: `authenticate` returns `False` without raising on
transport-level errors and on HTTP error statuses (>= 400, via
`raise_for_status`, both caught as `httpx.HTTPError`); but on a success
status it propagates an exception when the body is not valid JSON or
lacks the `AccessToken` or `User`/`Id` fields, and returns `True` only
when all of those are present. -/
theorem C8_amended_authenticate (status : Nat) (body : Option Json) (data : Json) :
    (authenticate AuthResponse.transportError = Except.ok false) ∧
    (400 ≤ status → authenticate (AuthResponse.response status body) = Except.ok false) ∧
    (status < 400 → body = none →
      authenticate (AuthResponse.response status body) = Except.error "JSONDecodeError") ∧
    (status < 400 → body = some data → jsonField data "AccessToken" = none →
      authenticate (AuthResponse.response status body) =
        Except.error "KeyError: AccessToken") ∧
    (status < 400 → body = some data → (jsonField data "AccessToken").isSome = true →
      ((jsonField data "User").bind fun u => jsonField u "Id") = none →
      authenticate (AuthResponse.response status body) = Except.error "KeyError: Id") ∧
    (status < 400 → body = some data → (jsonField data "AccessToken").isSome = true →
      (((jsonField data "User").bind fun u => jsonField u "Id")).isSome = true →
      authenticate (AuthResponse.response status body) = Except.ok true) := by
  refine ⟨rfl, ?_, ?_, ?_, ?_, ?_⟩
  · intro h
    simp only [authenticate]
    rw [if_pos h]
  · rintro h rfl
    simp only [authenticate]
    rw [if_neg (by omega)]
  · rintro h rfl htok
    simp only [authenticate]
    rw [if_neg (by omega), htok]
  · rintro h rfl htok hid
    obtain ⟨tok, htok'⟩ := Option.isSome_iff_exists.1 htok
    simp only [authenticate]
    rw [if_neg (by omega), htok', hid]
  · rintro h rfl htok hid
    obtain ⟨tok, htok'⟩ := Option.isSome_iff_exists.1 htok
    obtain ⟨uid, hid'⟩ := Option.isSome_iff_exists.1 hid
    simp only [authenticate]
    rw [if_neg (by omega), htok', hid']

/-- C8 witness: the amended theorem at concrete inputs — a 500 response is
caught and yields `False`; a well-formed 200 response yields `True`. -/
theorem C8_amended_witness :
    authenticate (AuthResponse.response 500 none) = Except.ok false ∧
    authenticate (AuthResponse.response 200
      (some (Json.jobj [("AccessToken", Json.jstr "t"),
        ("User", Json.jobj [("Id", Json.jstr "u")])]))) = Except.ok true :=
  ⟨(C8_amended_authenticate 500 none Json.null).2.1 (by omega),
    (C8_amended_authenticate 200
      (some (Json.jobj [("AccessToken", Json.jstr "t"),
        ("User", Json.jobj [("Id", Json.jstr "u")])]))
      (Json.jobj [("AccessToken", Json.jstr "t"),
        ("User", Json.jobj [("Id", Json.jstr "u")])])).2.2.2.2.2
      (by omega) rfl rfl rfl⟩

/-! ### The catalog lookup maps -/

theorem mem_selValues {α : Type} {pairs : List (String × α)} {k : String} {v : α} :
    v ∈ selValues pairs k ↔ (k, v) ∈ pairs := by
  constructor
  · intro hv
    obtain ⟨p, hp, hf⟩ := List.mem_filterMap.1 hv
    by_cases h : p.1 = k
    · rw [if_pos h] at hf
      injection hf with e
      have hpe : p = (k, v) := by
        obtain ⟨p1, p2⟩ := p
        simp only [Prod.mk.injEq]
        exact ⟨h, e⟩
      rwa [hpe] at hp
    · rw [if_neg h] at hf
      exact absurd hf (by simp)
  · intro hp
    exact List.mem_filterMap.2 ⟨(k, v), hp, by simp⟩

theorem dictGet_buildLatest_isSome_iff {α : Type} (pairs : List (String × α)) (k : String) :
    (∃ v, dictGet (buildLatest pairs) k = some v) ↔ ∃ v, (k, v) ∈ pairs := by
  rw [dictGet_buildLatest]
  constructor
  · rintro ⟨v, hv⟩
    have hne : selValues pairs k ≠ [] := by
      intro he
      rw [he] at hv
      simp at hv
    obtain ⟨w, hw⟩ : ∃ w, w ∈ selValues pairs k := by
      cases hsel : selValues pairs k with
      | nil => exact absurd hsel hne
      | cons a l => exact ⟨a, by simp⟩
    exact ⟨w, mem_selValues.1 hw⟩
  · rintro ⟨v, hv⟩
    have hmem : v ∈ selValues pairs k := mem_selValues.2 hv
    have hne : selValues pairs k ≠ [] := by
      intro he
      rw [he] at hmem
      simp at hmem
    exact Option.isSome_iff_exists.1 (List.getLast?_isSome.2 hne)

theorem foldl_dictSet_filterMap {α β : Type} (l : List β) (f : β → Option (String × α))
    (d : List (String × α)) :
    l.foldl (fun d b => match f b with | some p => dictSet d p.1 p.2 | none => d) d =
      (l.filterMap f).foldl (fun d p => dictSet d p.1 p.2) d := by
  induction l generalizing d with
  | nil => rfl
  | cons b bs ih =>
    simp only [List.foldl_cons, List.filterMap_cons]
    cases hf : f b with
    | none => exact ih d
    | some p =>
      simp only [List.foldl_cons]
      exact ih _

theorem buildRadarrLookup_eq (rms : List RadarrMovie) :
    buildRadarrLookup rms =
      buildLatest (rms.filterMap fun m =>
        match m.tmdbId with
        | some n => if n = 0 then none else some (intStr n, m)
        | none => none) := by
  rw [buildRadarrLookup, buildLatest, ← foldl_dictSet_filterMap]
  apply List.foldl_ext
  intro d m _
  cases m.tmdbId with
  | none => rfl
  | some n => by_cases hz : n = 0 <;> simp [hz]

theorem buildSonarrLookup_eq (sss : List SonarrSeries) :
    buildSonarrLookup sss =
      buildLatest (sss.filterMap fun s =>
        match s.tvdbId with
        | some n => if n = 0 then none else some (intStr n, s)
        | none => none) := by
  rw [buildSonarrLookup, buildLatest, ← foldl_dictSet_filterMap]
  apply List.foldl_ext
  intro d s _
  cases s.tvdbId with
  | none => rfl
  | some n => by_cases hz : n = 0 <;> simp [hz]

/-- C7 counterexample: a Radarr movie whose `tmdbId` is present and
non-null but equal to `0` is excluded from the lookup map (the Python
guard `if movie.get("tmdbId")` tests truthiness, and `0` is falsy), so
"present and non-null" does not characterize membership. -/
theorem C7_counterexample :
    buildRadarrLookup [{ tmdbId := some 0, id := some 7 }] = [] ∧
    ({ tmdbId := some 0, id := some 7 } : RadarrMovie).tmdbId ≠ none := by
  decide

/-- C7 amended: the lookup map has an entry under key `k` iff some catalog
item's external identifier is present, non-null and *truthy* (nonzero),
with `k` the decimal string form of that identifier; items with missing,
null or zero identifiers are excluded. -/
theorem C7_amended_lookup_maps (rms : List RadarrMovie) (sss : List SonarrSeries)
    (k : String) :
    ((∃ v, dictGet (buildRadarrLookup rms) k = some v) ↔
      ∃ m ∈ rms, ∃ n : Int, m.tmdbId = some n ∧ n ≠ 0 ∧ intStr n = k) ∧
    ((∃ v, dictGet (buildSonarrLookup sss) k = some v) ↔
      ∃ s ∈ sss, ∃ n : Int, s.tvdbId = some n ∧ n ≠ 0 ∧ intStr n = k) := by
  constructor
  · rw [buildRadarrLookup_eq, dictGet_buildLatest_isSome_iff]
    constructor
    · rintro ⟨v, hv⟩
      obtain ⟨m, hm, hf⟩ := List.mem_filterMap.1 hv
      cases htm : m.tmdbId with
      | none =>
        rw [htm] at hf
        simp at hf
      | some n =>
        rw [htm] at hf
        have hf2 : (if n = 0 then none else some (intStr n, m)) = some (k, v) := hf
        by_cases hz : n = 0
        · rw [if_pos hz] at hf2
          exact absurd hf2 (by simp)
        · rw [if_neg hz] at hf2
          injection hf2 with e
          exact ⟨m, hm, n, htm, hz, congrArg Prod.fst e⟩
    · rintro ⟨m, hm, n, htm, hz, hk⟩
      refine ⟨m, List.mem_filterMap.2 ⟨m, hm, ?_⟩⟩
      rw [htm]
      show (if n = 0 then none else some (intStr n, m)) = some (k, m)
      rw [if_neg hz, hk]
  · rw [buildSonarrLookup_eq, dictGet_buildLatest_isSome_iff]
    constructor
    · rintro ⟨v, hv⟩
      obtain ⟨s, hs, hf⟩ := List.mem_filterMap.1 hv
      cases htm : s.tvdbId with
      | none =>
        rw [htm] at hf
        simp at hf
      | some n =>
        rw [htm] at hf
        have hf2 : (if n = 0 then none else some (intStr n, s)) = some (k, v) := hf
        by_cases hz : n = 0
        · rw [if_pos hz] at hf2
          exact absurd hf2 (by simp)
        · rw [if_neg hz] at hf2
          injection hf2 with e
          exact ⟨s, hs, n, htm, hz, congrArg Prod.fst e⟩
    · rintro ⟨s, hs, n, htm, hz, hk⟩
      refine ⟨s, List.mem_filterMap.2 ⟨s, hs, ?_⟩⟩
      rw [htm]
      show (if n = 0 then none else some (intStr n, s)) = some (k, s)
      rw [if_neg hz, hk]

/-! ### Round-tripping the serialized report -/

theorem parseOptStr_dump (x : Option String) : parseOptStr (dumpOptStr x) = some x := by
  cases x <;> rfl

theorem parseOptInt_dump (x : Option Int) : parseOptInt (dumpOptInt x) = some x := by
  cases x <;> rfl

theorem parseNat_dump (n : Nat) : parseNat (Json.jint n) = some n := by
  simp [parseNat]

theorem parseList_map {α : Type} (p : Json → Option α) (f : α → Json)
    (h : ∀ a, p (f a) = some a) (l : List α) : parseList p (l.map f) = some l := by
  induction l with
  | nil => rfl
  | cons a as ih => simp [parseList, h, ih]

theorem parseStrList_dump (l : List String) : parseStrList (dumpStrList l) = some l := by
  rw [dumpStrList, parseStrList]
  exact parseList_map parseStr (fun s => Json.jstr s) (fun _ => rfl) l

theorem parseMovie_dump (m : MovieInfo) : parseMovie (dumpMovie m) = some m := by
  simp [parseMovie, dumpMovie, dictGet, parseOptStr_dump, parseOptInt_dump,
    parseStrList_dump, parseStr, parseBool]

theorem parseSeries_dump (s : SeriesInfo) : parseSeries (dumpSeries s) = some s := by
  simp [parseSeries, dumpSeries, dictGet, parseOptStr_dump, parseOptInt_dump,
    parseStrList_dump, parseNat_dump, parseStr, parseBool]

theorem parseUser_dump (u : UserWatchData) : parseUser (dumpUser u) = some u := by
  simp [parseUser, dumpUser, dictGet, parseStr,
    parseList_map parseMovie dumpMovie parseMovie_dump,
    parseList_map parseSeries dumpSeries parseSeries_dump]

/-- C9: serializing a `Report` to its JSON/dict form (`model_dump`) and
validating that form back yields the identical report — in particular
identical membership and order in each of the six buckets and identical
order of every `watched_by_users` list. -/
theorem C9_report_roundtrip (r : Report) : parseReport (dumpReport r) = some r := by
  simp [parseReport, dumpReport, dictGet, parseOptStr_dump, parseMovieArr, parseSeriesArr,
    parseList_map parseUser dumpUser parseUser_dump,
    parseList_map parseMovie dumpMovie parseMovie_dump,
    parseList_map parseSeries dumpSeries parseSeries_dump]

/-- C2: at the failing input — `exUserFullX` fully watched series "X"
(5/5), `exUserPartX` partially watched the same "X" (1/5) — the
fully-watchers accumulator for key `X_None` is `["A"]`, yet the entry
filed in `series_fully_watched_by_some` reports
`watched_by_users = ["B"]`: both buckets hold the one shared
`series_data` object and the partial loop's assignment
(`service.py:220`) overwrites the list set by the fully loop
(`service.py:211`). -/
theorem C2_shared_object_clobbers_fully_bucket :
    ((generateReport none none none [exUserFullX, exUserPartX]).series_fully_watched_by_some.map
      fun s => s.watched_by_users) = [["B"]] ∧
    ((generateReport none none none
        [exUserFullX, exUserPartX]).series_partially_watched_by_some.map
      fun s => s.watched_by_users) = [["B"]] ∧
    selValues (seriesPairsFull [exUserFullX, exUserPartX]) "X_None" = ["A"] := by
  decide

/-! ### Bucket membership characterizations -/

theorem mem_movies_all_iff (ju ru su : Option String) (u : List UserWatchData)
    (h : u.isEmpty = false) (m' : MovieInfo) :
    m' ∈ (generateReport ju ru su u).movies_watched_by_all ↔
      ∃ k ws m, (k, ws) ∈ buildWatchers (moviePairs u) ∧
        dictGet (buildLatest (movieDataPairs u)) k = some m ∧
        ws.length = u.length ∧ m' = { m with watched_by_users := ws } := by
  rw [generateReport_eq _ _ _ _ h]
  show m' ∈ (categorizeMovies _ _ _).1 ↔ _
  rw [categorizeMovies_fst, List.mem_filterMap]
  constructor
  · rintro ⟨⟨k, ws⟩, hmem, hf⟩
    cases hg : dictGet (buildLatest (movieDataPairs u)) k with
    | none =>
      rw [hg] at hf
      exact absurd hf (by simp)
    | some m =>
      rw [hg] at hf
      have hf2 : (if ws.length = u.length then
          some { m with watched_by_users := ws } else none) = some m' := hf
      by_cases hl : ws.length = u.length
      · rw [if_pos hl] at hf2
        injection hf2 with e
        exact ⟨k, ws, m, hmem, hg, hl, e.symm⟩
      · rw [if_neg hl] at hf2
        exact absurd hf2 (by simp)
  · rintro ⟨k, ws, m, hmem, hg, hl, rfl⟩
    refine ⟨(k, ws), hmem, ?_⟩
    rw [hg]
    show (if ws.length = u.length then
      some { m with watched_by_users := ws } else none) = _
    rw [if_pos hl]

theorem mem_movies_some_iff (ju ru su : Option String) (u : List UserWatchData)
    (h : u.isEmpty = false) (m' : MovieInfo) :
    m' ∈ (generateReport ju ru su u).movies_watched_by_some ↔
      ∃ k ws m, (k, ws) ∈ buildWatchers (moviePairs u) ∧
        dictGet (buildLatest (movieDataPairs u)) k = some m ∧
        ¬ws.length = u.length ∧ m' = { m with watched_by_users := ws } := by
  rw [generateReport_eq _ _ _ _ h]
  show m' ∈ (categorizeMovies _ _ _).2 ↔ _
  rw [categorizeMovies_snd, List.mem_filterMap]
  constructor
  · rintro ⟨⟨k, ws⟩, hmem, hf⟩
    cases hg : dictGet (buildLatest (movieDataPairs u)) k with
    | none =>
      rw [hg] at hf
      exact absurd hf (by simp)
    | some m =>
      rw [hg] at hf
      have hf2 : (if ws.length = u.length then none
          else some { m with watched_by_users := ws }) = some m' := hf
      by_cases hl : ws.length = u.length
      · rw [if_pos hl] at hf2
        exact absurd hf2 (by simp)
      · rw [if_neg hl] at hf2
        injection hf2 with e
        exact ⟨k, ws, m, hmem, hg, hl, e.symm⟩
  · rintro ⟨k, ws, m, hmem, hg, hl, rfl⟩
    refine ⟨(k, ws), hmem, ?_⟩
    rw [hg]
    show (if ws.length = u.length then none
      else some { m with watched_by_users := ws }) = _
    rw [if_neg hl]

theorem final_store_get (u : List UserWatchData) (k : String) :
    dictGet (fileSeries u.length (buildWatchers (seriesPairsPart u))
      (fileSeries u.length (buildWatchers (seriesPairsFull u))
        (buildLatest (seriesDataPairs u))).1).1 k =
      match dictGet (buildLatest (seriesDataPairs u)) k with
      | none => none
      | some s0 =>
        match dictGet (buildWatchers (seriesPairsPart u)) k with
        | some wsP => some { s0 with watched_by_users := wsP }
        | none =>
          match dictGet (buildWatchers (seriesPairsFull u)) k with
          | some wsF => some { s0 with watched_by_users := wsF }
          | none => some s0 := by
  rw [fileSeries_store_get _ _ _ _ (buildWatchers_keys_nodup _),
    fileSeries_store_get _ _ _ _ (buildWatchers_keys_nodup _)]
  cases dictGet (buildLatest (seriesDataPairs u)) k <;>
    cases dictGet (buildWatchers (seriesPairsFull u)) k <;>
      cases dictGet (buildWatchers (seriesPairsPart u)) k <;> simp

theorem isSome_mid_store (u : List UserWatchData) (k : String) :
    (dictGet (fileSeries u.length (buildWatchers (seriesPairsFull u))
      (buildLatest (seriesDataPairs u))).1 k).isSome =
      (dictGet (buildLatest (seriesDataPairs u)) k).isSome := by
  rw [fileSeries_store_get _ _ _ _ (buildWatchers_keys_nodup _)]
  cases dictGet (buildLatest (seriesDataPairs u)) k <;>
    cases dictGet (buildWatchers (seriesPairsFull u)) k <;> simp

theorem final_store_get_eq (u : List UserWatchData) (k : String) (s0 : SeriesInfo)
    (ws : List String)
    (hs0 : dictGet (buildLatest (seriesDataPairs u)) k = some s0)
    (hfwd : dictGet (buildWatchers (seriesPairsFull u)) k = some ws) :
    dictGet (fileSeries u.length (buildWatchers (seriesPairsPart u))
      (fileSeries u.length (buildWatchers (seriesPairsFull u))
        (buildLatest (seriesDataPairs u))).1).1 k =
      some { s0 with watched_by_users := finalWatchers u k ws } := by
  rw [final_store_get, hs0, hfwd]
  cases hpwd : dictGet (buildWatchers (seriesPairsPart u)) k <;>
    simp [finalWatchers, hpwd]

theorem final_store_get_part_eq (u : List UserWatchData) (k : String) (s0 : SeriesInfo)
    (wsP : List String)
    (hs0 : dictGet (buildLatest (seriesDataPairs u)) k = some s0)
    (hpwd : dictGet (buildWatchers (seriesPairsPart u)) k = some wsP) :
    dictGet (fileSeries u.length (buildWatchers (seriesPairsPart u))
      (fileSeries u.length (buildWatchers (seriesPairsFull u))
        (buildLatest (seriesDataPairs u))).1).1 k =
      some { s0 with watched_by_users := wsP } := by
  rw [final_store_get, hs0, hpwd]

theorem mem_series_fully_all_iff (ju ru su : Option String) (u : List UserWatchData)
    (h : u.isEmpty = false) (e : SeriesInfo) :
    e ∈ (generateReport ju ru su u).series_fully_watched_by_all ↔
      ∃ k ws s0, (k, ws) ∈ buildWatchers (seriesPairsFull u) ∧
        dictGet (buildLatest (seriesDataPairs u)) k = some s0 ∧
        ws.length = u.length ∧
        e = { s0 with watched_by_users := finalWatchers u k ws } := by
  rw [generateReport_eq _ _ _ _ h]
  show e ∈ resolveKeys _ _ ↔ _
  rw [resolveKeys, List.mem_filterMap]
  constructor
  · rintro ⟨k, hk, hst⟩
    rw [fileSeries_allKeys, List.mem_filterMap] at hk
    obtain ⟨⟨k', ws⟩, hmem, hcond⟩ := hk
    by_cases hc : (dictGet (buildLatest (seriesDataPairs u)) k').isSome = true ∧
        ws.length = u.length
    · rw [if_pos hc] at hcond
      injection hcond with e1
      subst e1
      obtain ⟨s0, hs0⟩ := Option.isSome_iff_exists.1 hc.1
      have hfwd : dictGet (buildWatchers (seriesPairsFull u)) k' = some ws :=
        mem_dictGet (buildWatchers_keys_nodup _) hmem
      have hval := (final_store_get_eq u k' s0 ws hs0 hfwd).symm.trans hst
      injection hval with e2
      exact ⟨k', ws, s0, hmem, hs0, hc.2, e2.symm⟩
    · rw [if_neg hc] at hcond
      exact absurd hcond (by simp)
  · rintro ⟨k, ws, s0, hmem, hs0, hl, rfl⟩
    have hfwd : dictGet (buildWatchers (seriesPairsFull u)) k = some ws :=
      mem_dictGet (buildWatchers_keys_nodup _) hmem
    refine ⟨k, ?_, final_store_get_eq u k s0 ws hs0 hfwd⟩
    rw [fileSeries_allKeys, List.mem_filterMap]
    exact ⟨(k, ws), hmem, by rw [if_pos ⟨by rw [hs0]; rfl, hl⟩]⟩

theorem mem_series_fully_some_iff (ju ru su : Option String) (u : List UserWatchData)
    (h : u.isEmpty = false) (e : SeriesInfo) :
    e ∈ (generateReport ju ru su u).series_fully_watched_by_some ↔
      ∃ k ws s0, (k, ws) ∈ buildWatchers (seriesPairsFull u) ∧
        dictGet (buildLatest (seriesDataPairs u)) k = some s0 ∧
        ¬ws.length = u.length ∧
        e = { s0 with watched_by_users := finalWatchers u k ws } := by
  rw [generateReport_eq _ _ _ _ h]
  show e ∈ resolveKeys _ _ ↔ _
  rw [resolveKeys, List.mem_filterMap]
  constructor
  · rintro ⟨k, hk, hst⟩
    rw [fileSeries_someKeys, List.mem_filterMap] at hk
    obtain ⟨⟨k', ws⟩, hmem, hcond⟩ := hk
    by_cases hc : (dictGet (buildLatest (seriesDataPairs u)) k').isSome = true ∧
        ¬ws.length = u.length
    · rw [if_pos hc] at hcond
      injection hcond with e1
      subst e1
      obtain ⟨s0, hs0⟩ := Option.isSome_iff_exists.1 hc.1
      have hfwd : dictGet (buildWatchers (seriesPairsFull u)) k' = some ws :=
        mem_dictGet (buildWatchers_keys_nodup _) hmem
      have hval := (final_store_get_eq u k' s0 ws hs0 hfwd).symm.trans hst
      injection hval with e2
      exact ⟨k', ws, s0, hmem, hs0, hc.2, e2.symm⟩
    · rw [if_neg hc] at hcond
      exact absurd hcond (by simp)
  · rintro ⟨k, ws, s0, hmem, hs0, hl, rfl⟩
    have hfwd : dictGet (buildWatchers (seriesPairsFull u)) k = some ws :=
      mem_dictGet (buildWatchers_keys_nodup _) hmem
    refine ⟨k, ?_, final_store_get_eq u k s0 ws hs0 hfwd⟩
    rw [fileSeries_someKeys, List.mem_filterMap]
    exact ⟨(k, ws), hmem, by rw [if_pos ⟨by rw [hs0]; rfl, hl⟩]⟩

theorem mem_series_part_all_iff (ju ru su : Option String) (u : List UserWatchData)
    (h : u.isEmpty = false) (e : SeriesInfo) :
    e ∈ (generateReport ju ru su u).series_partially_watched_by_all ↔
      ∃ k ws s0, (k, ws) ∈ buildWatchers (seriesPairsPart u) ∧
        dictGet (buildLatest (seriesDataPairs u)) k = some s0 ∧
        ws.length = u.length ∧
        e = { s0 with watched_by_users := ws } := by
  rw [generateReport_eq _ _ _ _ h]
  show e ∈ resolveKeys _ _ ↔ _
  rw [resolveKeys, List.mem_filterMap]
  constructor
  · rintro ⟨k, hk, hst⟩
    rw [fileSeries_allKeys, List.mem_filterMap] at hk
    obtain ⟨⟨k', ws⟩, hmem, hcond⟩ := hk
    by_cases hc : (dictGet (fileSeries u.length (buildWatchers (seriesPairsFull u))
        (buildLatest (seriesDataPairs u))).1 k').isSome = true ∧
        ws.length = u.length
    · rw [if_pos hc] at hcond
      injection hcond with e1
      subst e1
      have hsd : (dictGet (buildLatest (seriesDataPairs u)) k').isSome = true := by
        rw [← isSome_mid_store]
        exact hc.1
      obtain ⟨s0, hs0⟩ := Option.isSome_iff_exists.1 hsd
      have hpwd : dictGet (buildWatchers (seriesPairsPart u)) k' = some ws :=
        mem_dictGet (buildWatchers_keys_nodup _) hmem
      have hval := (final_store_get_part_eq u k' s0 ws hs0 hpwd).symm.trans hst
      injection hval with e2
      exact ⟨k', ws, s0, hmem, hs0, hc.2, e2.symm⟩
    · rw [if_neg hc] at hcond
      exact absurd hcond (by simp)
  · rintro ⟨k, ws, s0, hmem, hs0, hl, rfl⟩
    have hpwd : dictGet (buildWatchers (seriesPairsPart u)) k = some ws :=
      mem_dictGet (buildWatchers_keys_nodup _) hmem
    refine ⟨k, ?_, final_store_get_part_eq u k s0 ws hs0 hpwd⟩
    rw [fileSeries_allKeys, List.mem_filterMap]
    refine ⟨(k, ws), hmem, ?_⟩
    rw [if_pos ⟨by rw [isSome_mid_store, hs0]; rfl, hl⟩]

theorem mem_series_part_some_iff (ju ru su : Option String) (u : List UserWatchData)
    (h : u.isEmpty = false) (e : SeriesInfo) :
    e ∈ (generateReport ju ru su u).series_partially_watched_by_some ↔
      ∃ k ws s0, (k, ws) ∈ buildWatchers (seriesPairsPart u) ∧
        dictGet (buildLatest (seriesDataPairs u)) k = some s0 ∧
        ¬ws.length = u.length ∧
        e = { s0 with watched_by_users := ws } := by
  rw [generateReport_eq _ _ _ _ h]
  show e ∈ resolveKeys _ _ ↔ _
  rw [resolveKeys, List.mem_filterMap]
  constructor
  · rintro ⟨k, hk, hst⟩
    rw [fileSeries_someKeys, List.mem_filterMap] at hk
    obtain ⟨⟨k', ws⟩, hmem, hcond⟩ := hk
    by_cases hc : (dictGet (fileSeries u.length (buildWatchers (seriesPairsFull u))
        (buildLatest (seriesDataPairs u))).1 k').isSome = true ∧
        ¬ws.length = u.length
    · rw [if_pos hc] at hcond
      injection hcond with e1
      subst e1
      have hsd : (dictGet (buildLatest (seriesDataPairs u)) k').isSome = true := by
        rw [← isSome_mid_store]
        exact hc.1
      obtain ⟨s0, hs0⟩ := Option.isSome_iff_exists.1 hsd
      have hpwd : dictGet (buildWatchers (seriesPairsPart u)) k' = some ws :=
        mem_dictGet (buildWatchers_keys_nodup _) hmem
      have hval := (final_store_get_part_eq u k' s0 ws hs0 hpwd).symm.trans hst
      injection hval with e2
      exact ⟨k', ws, s0, hmem, hs0, hc.2, e2.symm⟩
    · rw [if_neg hc] at hcond
      exact absurd hcond (by simp)
  · rintro ⟨k, ws, s0, hmem, hs0, hl, rfl⟩
    have hpwd : dictGet (buildWatchers (seriesPairsPart u)) k = some ws :=
      mem_dictGet (buildWatchers_keys_nodup _) hmem
    refine ⟨k, ?_, final_store_get_part_eq u k s0 ws hs0 hpwd⟩
    rw [fileSeries_someKeys, List.mem_filterMap]
    refine ⟨(k, ws), hmem, ?_⟩
    rw [if_pos ⟨by rw [isSome_mid_store, hs0]; rfl, hl⟩]

/-- C1 counterexample: with a single user whose list contains two movies
with the same title/year key, the one group has a watcher list of length
2, is filed under "watched by some" (2 ≠ 1 = total), and its length
exceeds total-user-count minus 1 = 0 — refuting the claimed upper
bound. -/
theorem C1_counterexample :
    ((generateReport none none none [exUserDupMovie]).movies_watched_by_some.map
      fun m => m.watched_by_users.length) = [2] ∧
    [exUserDupMovie].length = 1 := by
  decide

/-- C1 amended: provided each user's movie list and series list contain at
most one item per title/year grouping key (no duplicate-keyed items within
one user), every item filed in a "watched by all" bucket carries a watcher
list whose length equals the total user count, and every item filed in a
"watched by some" bucket carries a watcher list whose length is between 1
and total minus 1.  (Without the proviso, a duplicate-keyed item makes a
"some" list longer than total minus 1.) -/
theorem C1_amended_watcher_counts (ju ru su : Option String) (u : List UserWatchData)
    (Hm : ∀ ud ∈ u, (ud.watched_movies.map MovieInfo.groupKey).Nodup)
    (Hs : ∀ ud ∈ u, (ud.watched_series.map SeriesInfo.groupKey).Nodup) :
    (∀ m ∈ (generateReport ju ru su u).movies_watched_by_all,
      m.watched_by_users.length = u.length) ∧
    (∀ m ∈ (generateReport ju ru su u).movies_watched_by_some,
      1 ≤ m.watched_by_users.length ∧ m.watched_by_users.length ≤ u.length - 1) ∧
    (∀ s ∈ (generateReport ju ru su u).series_fully_watched_by_all,
      s.watched_by_users.length = u.length) ∧
    (∀ s ∈ (generateReport ju ru su u).series_fully_watched_by_some,
      1 ≤ s.watched_by_users.length ∧ s.watched_by_users.length ≤ u.length - 1) ∧
    (∀ s ∈ (generateReport ju ru su u).series_partially_watched_by_all,
      s.watched_by_users.length = u.length) ∧
    (∀ s ∈ (generateReport ju ru su u).series_partially_watched_by_some,
      1 ≤ s.watched_by_users.length ∧ s.watched_by_users.length ≤ u.length - 1) := by
  by_cases hemp : u.isEmpty
  · have : u = [] := by
      cases u with
      | nil => rfl
      | cons a l => simp at hemp
    subst this
    rw [generateReport_empty]
    simp
  · have h : u.isEmpty = false := by
      cases he : u.isEmpty with
      | true => exact absurd he hemp
      | false => rfl
    refine ⟨?_, ?_, ?_, ?_, ?_, ?_⟩
    · intro m hm
      rw [mem_movies_all_iff ju ru su u h] at hm
      obtain ⟨k, ws, m0, hmem, hg, hl, rfl⟩ := hm
      exact hl
    · intro m hm
      rw [mem_movies_some_iff ju ru su u h] at hm
      obtain ⟨k, ws, m0, hmem, hg, hl, rfl⟩ := hm
      obtain ⟨hwsel, hne⟩ := mem_buildWatchers hmem
      have hpos : 0 < ws.length := List.length_pos.mpr hne
      have hle : ws.length ≤ u.length := by
        rw [hwsel]
        exact length_selValues_moviePairs_le u k Hm
      show 1 ≤ ws.length ∧ ws.length ≤ u.length - 1
      exact ⟨by omega, by omega⟩
    · intro s hs
      rw [mem_series_fully_all_iff ju ru su u h] at hs
      obtain ⟨k, ws, s0, hmem, hs0, hl, rfl⟩ := hs
      obtain ⟨hwsel, hne⟩ := mem_buildWatchers hmem
      have hsum := length_selValues_series_both_le u k Hs
      have hlenF : (selValues (seriesPairsFull u) k).length = u.length := by
        rw [← hwsel]
        exact hl
      have hPnil : selValues (seriesPairsPart u) k = [] := by
        cases hwp : selValues (seriesPairsPart u) k with
        | nil => rfl
        | cons a l =>
          rw [hwp] at hsum
          simp at hsum
          omega
      have hpwd := dictGet_buildWatchers_of_nil hPnil
      show (finalWatchers u k ws).length = u.length
      rw [finalWatchers, hpwd]
      exact hl
    · intro s hs
      rw [mem_series_fully_some_iff ju ru su u h] at hs
      obtain ⟨k, ws, s0, hmem, hs0, hl, rfl⟩ := hs
      obtain ⟨hwsel, hne⟩ := mem_buildWatchers hmem
      have hsum := length_selValues_series_both_le u k Hs
      have hposF : 0 < ws.length := List.length_pos.mpr hne
      have hlenF : ws.length = (selValues (seriesPairsFull u) k).length := by
        rw [hwsel]
      show 1 ≤ (finalWatchers u k ws).length ∧
        (finalWatchers u k ws).length ≤ u.length - 1
      cases hpwd : dictGet (buildWatchers (seriesPairsPart u)) k with
      | none =>
        rw [finalWatchers, hpwd]
        show 1 ≤ ws.length ∧ ws.length ≤ u.length - 1
        exact ⟨by omega, by omega⟩
      | some wsP =>
        rw [finalWatchers, hpwd]
        show 1 ≤ wsP.length ∧ wsP.length ≤ u.length - 1
        by_cases hPnil : selValues (seriesPairsPart u) k = []
        · rw [dictGet_buildWatchers_of_nil hPnil] at hpwd
          exact absurd hpwd (by simp)
        · rw [dictGet_buildWatchers_of_ne_nil hPnil] at hpwd
          injection hpwd with e2
          subst e2
          have hposP : 0 < (selValues (seriesPairsPart u) k).length := by
            cases hwp : selValues (seriesPairsPart u) k with
            | nil => exact absurd hwp hPnil
            | cons a l => simp
          exact ⟨by omega, by omega⟩
    · intro s hs
      rw [mem_series_part_all_iff ju ru su u h] at hs
      obtain ⟨k, ws, s0, hmem, hs0, hl, rfl⟩ := hs
      exact hl
    · intro s hs
      rw [mem_series_part_some_iff ju ru su u h] at hs
      obtain ⟨k, ws, s0, hmem, hs0, hl, rfl⟩ := hs
      obtain ⟨hwsel, hne⟩ := mem_buildWatchers hmem
      have hsum := length_selValues_series_both_le u k Hs
      have hpos : 0 < ws.length := List.length_pos.mpr hne
      have hlenP : ws.length = (selValues (seriesPairsPart u) k).length := by
        rw [hwsel]
      show 1 ≤ ws.length ∧ ws.length ≤ u.length - 1
      exact ⟨by omega, by omega⟩

/-- C1 witness: the amended theorem applied to two users who both watched
movie "M", where A fully and B partially watched series "X"; the
per-user key lists are duplicate-free by computation. -/
theorem C1_amended_witness :
    (∀ m ∈ (generateReport none none none [exUserA, exUserB]).movies_watched_by_all,
      m.watched_by_users.length = [exUserA, exUserB].length) ∧
    (∀ m ∈ (generateReport none none none [exUserA, exUserB]).movies_watched_by_some,
      1 ≤ m.watched_by_users.length ∧
        m.watched_by_users.length ≤ [exUserA, exUserB].length - 1) ∧
    (∀ s ∈ (generateReport none none none [exUserA, exUserB]).series_fully_watched_by_all,
      s.watched_by_users.length = [exUserA, exUserB].length) ∧
    (∀ s ∈ (generateReport none none none [exUserA, exUserB]).series_fully_watched_by_some,
      1 ≤ s.watched_by_users.length ∧
        s.watched_by_users.length ≤ [exUserA, exUserB].length - 1) ∧
    (∀ s ∈ (generateReport none none none [exUserA, exUserB]).series_partially_watched_by_all,
      s.watched_by_users.length = [exUserA, exUserB].length) ∧
    (∀ s ∈ (generateReport none none none [exUserA, exUserB]).series_partially_watched_by_some,
      1 ≤ s.watched_by_users.length ∧
        s.watched_by_users.length ≤ [exUserA, exUserB].length - 1) :=
  C1_amended_watcher_counts none none none [exUserA, exUserB] (by decide) (by decide)

/-! ### Last-writer representatives and per-user provenance -/

theorem dictGet_movieData (u : List UserWatchData) (k : String) :
    dictGet (buildLatest (movieDataPairs u)) k = (movieContribs u k).getLast? := by
  rw [dictGet_buildLatest, selValues_movieDataPairs]

theorem dictGet_seriesData (u : List UserWatchData) (k : String) :
    dictGet (buildLatest (seriesDataPairs u)) k = (seriesContribs u k).getLast? := by
  rw [dictGet_buildLatest, selValues_seriesDataPairs]

theorem groupKey_of_mem_movieContribs {u : List UserWatchData} {k : String} {m : MovieInfo}
    (h : m ∈ movieContribs u k) : m.groupKey = k := by
  rw [movieContribs] at h
  obtain ⟨ud, _, hm⟩ := List.mem_flatMap.1 h
  have := List.of_mem_filter hm
  simpa using this

theorem groupKey_of_mem_seriesContribs {u : List UserWatchData} {k : String} {s : SeriesInfo}
    (h : s ∈ seriesContribs u k) : s.groupKey = k := by
  rw [seriesContribs] at h
  obtain ⟨ud, _, hs⟩ := List.mem_flatMap.1 h
  have := List.of_mem_filter hs
  simpa using this

theorem groupKey_of_movieData {u : List UserWatchData} {k : String} {m : MovieInfo}
    (h : dictGet (buildLatest (movieDataPairs u)) k = some m) : m.groupKey = k := by
  rw [dictGet_movieData] at h
  exact groupKey_of_mem_movieContribs (List.mem_of_mem_getLast? h)

theorem groupKey_of_seriesData {u : List UserWatchData} {k : String} {s : SeriesInfo}
    (h : dictGet (buildLatest (seriesDataPairs u)) k = some s) : s.groupKey = k := by
  rw [dictGet_seriesData] at h
  exact groupKey_of_mem_seriesContribs (List.mem_of_mem_getLast? h)

/-- C10: every representative item filed into a bucket is, in all fields
except the attached watcher list, the entry contributed by the last user
(in users-list iteration order) holding that title/year key: the
`movie_data[key] = movie` / `series_data[key] = series` assignments let
each later contributor overwrite the earlier ones, so earlier users'
per-item fields (path, external ids, catalog presence and id, episode
counts, fully-watched flag) are discarded. -/
theorem C10_last_writer_representative (ju ru su : Option String) (u : List UserWatchData) :
    (∀ m ∈ (generateReport ju ru su u).movies_watched_by_all ++
        (generateReport ju ru su u).movies_watched_by_some,
      ∃ m0, (movieContribs u m.groupKey).getLast? = some m0 ∧
        m = { m0 with watched_by_users := m.watched_by_users }) ∧
    (∀ s ∈ seriesBuckets (generateReport ju ru su u),
      ∃ s0, (seriesContribs u s.groupKey).getLast? = some s0 ∧
        s = { s0 with watched_by_users := s.watched_by_users }) := by
  by_cases hemp : u.isEmpty
  · have : u = [] := by
      cases u with
      | nil => rfl
      | cons a l => simp at hemp
    subst this
    rw [generateReport_empty]
    constructor
    · intro m hm
      simp [seriesBuckets] at hm
    · intro s hs
      simp [seriesBuckets] at hs
  · have h : u.isEmpty = false := by
      cases he : u.isEmpty with
      | true => exact absurd he hemp
      | false => rfl
    constructor
    · intro m hm
      rcases List.mem_append.1 hm with hm | hm
      · rw [mem_movies_all_iff ju ru su u h] at hm
        obtain ⟨k, ws, m0, hmem, hg, hl, rfl⟩ := hm
        have hk : m0.groupKey = k := groupKey_of_movieData hg
        refine ⟨m0, ?_, rfl⟩
        rw [show ({ m0 with watched_by_users := ws } : MovieInfo).groupKey = k from hk]
        rw [← dictGet_movieData]
        exact hg
      · rw [mem_movies_some_iff ju ru su u h] at hm
        obtain ⟨k, ws, m0, hmem, hg, hl, rfl⟩ := hm
        have hk : m0.groupKey = k := groupKey_of_movieData hg
        refine ⟨m0, ?_, rfl⟩
        rw [show ({ m0 with watched_by_users := ws } : MovieInfo).groupKey = k from hk]
        rw [← dictGet_movieData]
        exact hg
    · intro s hs
      rw [seriesBuckets] at hs
      have main : ∀ k (s0 : SeriesInfo) (W : List String),
          dictGet (buildLatest (seriesDataPairs u)) k = some s0 →
          s = { s0 with watched_by_users := W } →
          ∃ s1, (seriesContribs u s.groupKey).getLast? = some s1 ∧
            s = { s1 with watched_by_users := s.watched_by_users } := by
        intro k s0 W hg he
        have hk : s0.groupKey = k := groupKey_of_seriesData hg
        subst he
        refine ⟨s0, ?_, rfl⟩
        rw [show ({ s0 with watched_by_users := W } : SeriesInfo).groupKey = k from hk]
        rw [← dictGet_seriesData]
        exact hg
      rcases List.mem_append.1 hs with hs' | hs'
      · rcases List.mem_append.1 hs' with hs'' | hs''
        · rcases List.mem_append.1 hs'' with hb | hb
          · rw [mem_series_fully_all_iff ju ru su u h] at hb
            obtain ⟨k, ws, s0, hmem, hg, hl, he⟩ := hb
            exact main k s0 _ hg he
          · rw [mem_series_fully_some_iff ju ru su u h] at hb
            obtain ⟨k, ws, s0, hmem, hg, hl, he⟩ := hb
            exact main k s0 _ hg he
        · rw [mem_series_part_all_iff ju ru su u h] at hs''
          obtain ⟨k, ws, s0, hmem, hg, hl, he⟩ := hs''
          exact main k s0 _ hg he
      · rw [mem_series_part_some_iff ju ru su u h] at hs'
        obtain ⟨k, ws, s0, hmem, hg, hl, he⟩ := hs'
        exact main k s0 _ hg he

/-- C10 witness: at two users who both watched movie "M", the bucket
entry's fields come from the last user's contribution. -/
theorem C10_witness :
    ∃ m0, (movieContribs [exUserA, exUserB]
        ({ title := "M", watched_by_users := ["A", "B"] } : MovieInfo).groupKey).getLast? =
          some m0 ∧
      ({ title := "M", watched_by_users := ["A", "B"] } : MovieInfo) =
        { m0 with watched_by_users :=
          ({ title := "M", watched_by_users := ["A", "B"] } : MovieInfo).watched_by_users } :=
  (C10_last_writer_representative none none none [exUserA, exUserB]).1
    { title := "M", watched_by_users := ["A", "B"] } (by decide)

/-! ### The zero-watched-count filter -/

theorem parse_series_none_of_zero {s : JFSeries} {uid : String}
    {lookup : List (String × SonarrSeries)} {eps : Option String → String → List Episode}
    (h : (is_series_fully_watched (eps s.jellyfinId uid)).2.1 = 0) :
    parse_series s uid lookup eps = none := by
  rw [parse_series]
  simp [h]

theorem parse_series_some_facts {s : JFSeries} {uid : String}
    {lookup : List (String × SonarrSeries)} {eps : Option String → String → List Episode}
    {si : SeriesInfo} (h : parse_series s uid lookup eps = some si) :
    si.watched_episodes = (is_series_fully_watched (eps s.jellyfinId uid)).2.1 ∧
    si.watched_episodes ≠ 0 ∧ si.groupKey = JFSeries.parsedKey s := by
  by_cases hz : (is_series_fully_watched (eps s.jellyfinId uid)).2.1 = 0
  · rw [parse_series_none_of_zero hz] at h
    exact absurd h (by simp)
  · rw [parse_series] at h
    simp only [hz, if_false, Option.some.injEq] at h
    subst h
    exact ⟨rfl, hz, rfl⟩

theorem mem_selValues_seriesPairsFull {u : List UserWatchData} {k : String} {n : String}
    (h : n ∈ selValues (seriesPairsFull u) k) :
    ∃ ud ∈ u, ud.username = n ∧ ∃ si ∈ ud.watched_series, si.groupKey = k := by
  rw [selValues_seriesPairsFull] at h
  obtain ⟨ud, hud, hmem⟩ := List.mem_flatMap.1 h
  obtain ⟨si, hsi, he⟩ := List.mem_map.1 hmem
  have hsi1 := List.mem_of_mem_filter hsi
  have hk := List.of_mem_filter hsi
  exact ⟨ud, hud, he, si, List.mem_of_mem_filter hsi1, by simpa using hk⟩

theorem mem_selValues_seriesPairsPart {u : List UserWatchData} {k : String} {n : String}
    (h : n ∈ selValues (seriesPairsPart u) k) :
    ∃ ud ∈ u, ud.username = n ∧ ∃ si ∈ ud.watched_series, si.groupKey = k := by
  rw [selValues_seriesPairsPart] at h
  obtain ⟨ud, hud, hmem⟩ := List.mem_flatMap.1 h
  obtain ⟨si, hsi, he⟩ := List.mem_map.1 hmem
  have hsi1 := List.mem_of_mem_filter hsi
  have hk := List.of_mem_filter hsi
  exact ⟨ud, hud, he, si, List.mem_of_mem_filter hsi1, by simpa using hk⟩

theorem collect_data_authFail (env : JellyfinEnv) (rm : List RadarrMovie)
    (ss : List SonarrSeries) (ju ru su : Option String) (h : env.authOk = false) :
    collect_data env rm ss ju ru su = {} := by
  rw [collect_data]
  simp [h]

theorem collect_data_eq (env : JellyfinEnv) (rm : List RadarrMovie)
    (ss : List SonarrSeries) (ju ru su : Option String) (h : env.authOk = true) :
    collect_data env rm ss ju ru su =
      generateReport ju ru su
        (collectUserData env (buildRadarrLookup rm) (buildSonarrLookup ss)) := by
  rw [collect_data]
  simp [h]

theorem generateReport_users (ju ru su : Option String) (u : List UserWatchData) :
    (generateReport ju ru su u).users = u := by
  rw [generateReport]
  by_cases h : u.isEmpty = true <;> simp [h]

theorem no_series_contribution_of_zero (env : JellyfinEnv)
    (rl : List (String × RadarrMovie)) (sl : List (String × SonarrSeries))
    (u0 : JFUser) (k : String)
    (hname : ∀ u' ∈ env.users, u'.name = u0.name → u'.id = u0.id)
    (hzero : ∀ s ∈ env.watchedSeries u0.id, JFSeries.parsedKey s = k →
      (is_series_fully_watched (env.episodesOf s.jellyfinId u0.id)).2.1 = 0) :
    u0.name ∉ selValues (seriesPairsFull (collectUserData env rl sl)) k ∧
    u0.name ∉ selValues (seriesPairsPart (collectUserData env rl sl)) k := by
  constructor <;> intro hmem
  · obtain ⟨ud, hud, hun, si, hsi, hk⟩ := mem_selValues_seriesPairsFull hmem
    rw [collectUserData] at hud
    obtain ⟨u', hu', rfl⟩ := List.mem_map.1 hud
    have hid : u'.id = u0.id := hname u' hu' (by simpa using hun)
    obtain ⟨s, hs, hparse⟩ := List.mem_filterMap.1 hsi
    rw [hid] at hs hparse
    obtain ⟨hw, hnz, hkey⟩ := parse_series_some_facts hparse
    have hpk : JFSeries.parsedKey s = k := by
      rw [← hkey]
      exact hk
    exact hnz (by rw [hw, hzero s hs hpk])
  · obtain ⟨ud, hud, hun, si, hsi, hk⟩ := mem_selValues_seriesPairsPart hmem
    rw [collectUserData] at hud
    obtain ⟨u', hu', rfl⟩ := List.mem_map.1 hud
    have hid : u'.id = u0.id := hname u' hu' (by simpa using hun)
    obtain ⟨s, hs, hparse⟩ := List.mem_filterMap.1 hsi
    rw [hid] at hs hparse
    obtain ⟨hw, hnz, hkey⟩ := parse_series_some_facts hparse
    have hpk : JFSeries.parsedKey s = k := by
      rw [← hkey]
      exact hk
    exact hnz (by rw [hw, hzero s hs hpk])

/-- C4: a series whose watched-episode count for a user is 0 is excluded
from that user's watch record by `_parse_series` (every filed record has a
nonzero count), and consequently — assuming no two distinct users share a
username — that user's name never appears in the watcher list of any
series-bucket entry for that title/year key, even when other users watched
the series with a nonzero count. -/
theorem C4_zero_watched_series_excluded (env : JellyfinEnv) (rm : List RadarrMovie)
    (ss : List SonarrSeries) (ju ru su : Option String) (u0 : JFUser) (k : String)
    (hname : ∀ u' ∈ env.users, u'.name = u0.name → u'.id = u0.id)
    (hzero : ∀ s ∈ env.watchedSeries u0.id, JFSeries.parsedKey s = k →
      (is_series_fully_watched (env.episodesOf s.jellyfinId u0.id)).2.1 = 0) :
    (∀ ud ∈ (collect_data env rm ss ju ru su).users, ∀ si ∈ ud.watched_series,
      si.watched_episodes ≠ 0) ∧
    (∀ e ∈ seriesBuckets (collect_data env rm ss ju ru su), e.groupKey = k →
      u0.name ∉ e.watched_by_users) := by
  cases hauth : env.authOk with
  | false =>
    rw [collect_data_authFail env rm ss ju ru su hauth]
    constructor
    · intro ud hud
      exact absurd hud (by simp)
    · intro e he
      exact absurd he (by simp [seriesBuckets])
  | true =>
    rw [collect_data_eq env rm ss ju ru su hauth]
    constructor
    · rw [generateReport_users]
      intro ud hud si hsi
      rw [collectUserData] at hud
      obtain ⟨u', hu', rfl⟩ := List.mem_map.1 hud
      obtain ⟨s, hs, hparse⟩ := List.mem_filterMap.1 hsi
      exact (parse_series_some_facts hparse).2.1
    · have hno := no_series_contribution_of_zero env (buildRadarrLookup rm)
        (buildSonarrLookup ss) u0 k hname hzero
      set UD := collectUserData env (buildRadarrLookup rm) (buildSonarrLookup ss) with hUD
      by_cases hemp : UD.isEmpty
      · have hnil : UD = [] := by
          cases hc : UD with
          | nil => rfl
          | cons a l =>
            rw [hc] at hemp
            simp at hemp
        rw [hnil, generateReport_empty]
        intro e he
        exact absurd he (by simp [seriesBuckets])
      · have h' : UD.isEmpty = false := by
          cases he : UD.isEmpty with
          | true => exact absurd he hemp
          | false => rfl
        have hfullCase : ∀ ws, (k, ws) ∈ buildWatchers (seriesPairsFull UD) →
            u0.name ∈ finalWatchers UD k ws → False := by
          intro ws hmem hin
          cases hpwd : dictGet (buildWatchers (seriesPairsPart UD)) k with
          | some wsP =>
            rw [finalWatchers, hpwd] at hin
            have hin2 : u0.name ∈ wsP := hin
            by_cases hPnil : selValues (seriesPairsPart UD) k = []
            · rw [dictGet_buildWatchers_of_nil hPnil] at hpwd
              exact absurd hpwd (by simp)
            · rw [dictGet_buildWatchers_of_ne_nil hPnil] at hpwd
              injection hpwd with e2
              subst e2
              exact hno.2 hin2
          | none =>
            rw [finalWatchers, hpwd] at hin
            have hin2 : u0.name ∈ ws := hin
            obtain ⟨hwsel, _⟩ := mem_buildWatchers hmem
            rw [hwsel] at hin2
            exact hno.1 hin2
        have hpartCase : ∀ ws, (k, ws) ∈ buildWatchers (seriesPairsPart UD) →
            u0.name ∈ ws → False := by
          intro ws hmem hin
          obtain ⟨hwsel, _⟩ := mem_buildWatchers hmem
          rw [hwsel] at hin
          exact hno.2 hin
        intro e he hkey hin
        rw [seriesBuckets] at he
        rcases List.mem_append.1 he with he' | he'
        · rcases List.mem_append.1 he' with he'' | he''
          · rcases List.mem_append.1 he'' with hb | hb
            · rw [mem_series_fully_all_iff ju ru su UD h'] at hb
              obtain ⟨k_b, ws, s0, hmem, hg, hl, heq⟩ := hb
              have hkb : k_b = k := by
                rw [← hkey, heq]
                exact (groupKey_of_seriesData hg).symm
              subst hkb
              have hin2 : u0.name ∈ finalWatchers UD k_b ws := by
                rw [heq] at hin
                exact hin
              exact hfullCase ws hmem hin2
            · rw [mem_series_fully_some_iff ju ru su UD h'] at hb
              obtain ⟨k_b, ws, s0, hmem, hg, hl, heq⟩ := hb
              have hkb : k_b = k := by
                rw [← hkey, heq]
                exact (groupKey_of_seriesData hg).symm
              subst hkb
              have hin2 : u0.name ∈ finalWatchers UD k_b ws := by
                rw [heq] at hin
                exact hin
              exact hfullCase ws hmem hin2
          · rw [mem_series_part_all_iff ju ru su UD h'] at he''
            obtain ⟨k_b, ws, s0, hmem, hg, hl, heq⟩ := he''
            have hkb : k_b = k := by
              rw [← hkey, heq]
              exact (groupKey_of_seriesData hg).symm
            subst hkb
            have hin2 : u0.name ∈ ws := by
              rw [heq] at hin
              exact hin
            exact hpartCase ws hmem hin2
        · rw [mem_series_part_some_iff ju ru su UD h'] at he'
          obtain ⟨k_b, ws, s0, hmem, hg, hl, heq⟩ := he'
          have hkb : k_b = k := by
            rw [← hkey, heq]
            exact (groupKey_of_seriesData hg).symm
          subst hkb
          have hin2 : u0.name ∈ ws := by
            rw [heq] at hin
            exact hin
          exact hpartCase ws hmem hin2

/-- C4 witness: in `exEnvC4`, user A's watched count for series "X" is 0
while user B fully watched it; the theorem applies and the report's
series buckets never list "A" for key `X_None`. -/
theorem C4_witness :
    (∀ ud ∈ (collect_data exEnvC4 [] [] none none none).users, ∀ si ∈ ud.watched_series,
      si.watched_episodes ≠ 0) ∧
    (∀ e ∈ seriesBuckets (collect_data exEnvC4 [] [] none none none),
      e.groupKey = "X_None" →
      ({ id := "1", name := "A" } : JFUser).name ∉ e.watched_by_users) :=
  C4_zero_watched_series_excluded exEnvC4 [] [] none none none
    { id := "1", name := "A" } "X_None" (by decide) (by decide)
